import Mathlib

/-!
# A shallow embedding of the LoxV1 scanner

This file embeds the lexical analyser of the repository (src/scanner/mod.rs,
src/tokens.rs) into Lean 4 and proves the specification claims about it.

Modelling conventions:
* Rust `Vec<char>` becomes `List Char`; Rust `String` values (lexemes,
  literals, error messages) become `List Char` except for the fixed error
  message texts, kept as Lean `String`s.
* The global side-effecting error sink (`error_log::error`) is modelled as an
  explicit append-only list of `(line, message)` pairs inside the scanner
  state, as the spec itself suggests for a pure reimplementation.
* `f64` number literals are modelled as exact rationals: the scanner only
  parses spans of the shape `digits (. digits)?`, and every claim settled here
  uses values that IEEE-754 doubles represent exactly.
* Rust indexing `buf[i]` panics when out of bounds.  The embedding instead
  returns the NUL character and raises a sticky `oob` flag in the state; the
  safety claim proves the flag is never raised, i.e. the panic is unreachable.
* The Rust `while` loops are written as structurally recursive functions over
  an explicit fuel argument; every call site passes
  `buf.length - current`, which suffices because each iteration consumes at
  least one character.  This keeps every definition kernel-executable.
* Rust's Unicode-aware `char::is_alphabetic` / `char::is_alphanumeric` are
  modelled by `isAlphabetic` / `isAlphanumeric` below: range tables of the
  Unicode `Alphabetic` derived property and of the number categories
  (Unicode 14.0.0), so non-ASCII letters dispatch to identifier scanning
  exactly as in the source.
-/

set_option maxRecDepth 8192

/-- Token kinds, from `TTy` in src/tokens.rs. -/
inductive TTy where
  | LParen | RParen | LBrace | RBrace | Comma | Period | Minus | Plus | Semicolon | FSlash | Asterisk
  | Bang | BangEq | Eq | EqEq | Gt | GtEq | Lt | LtEq
  | Ident | String | Number
  | And | Class | Else | False | Fn | For | If | Null | Or
  | Print | Return | Super | This | True | Var | While
  | EOF
  deriving DecidableEq, Repr

/-- Token literals, from `TLit` in src/tokens.rs.  `Number` carries the exact
rational value of the decimal numeral (the Rust code stores an `f64`). -/
inductive TLit where
  | Null
  | Number (q : ℚ)
  | String (s : List Char)
  | Bool (b : Bool)
  deriving DecidableEq, Repr

/-- A token, from `Token` in src/tokens.rs: kind, lexeme (the exact source
span), literal value, and 1-based line number. -/
structure Token where
  ty : TTy
  lexeme : List Char
  literal : TLit
  line : Nat
  deriving DecidableEq, Repr

/-- The scanner state, from `Scanner` in src/scanner/mod.rs, extended with the
explicit error sink `errors` and the out-of-bounds flag `oob` (see the header
comment). -/
structure Scanner where
  buf : List Char
  start : Nat
  current : Nat
  line : Nat
  tokens : List Token
  errors : List (Nat × String)
  oob : Bool
  deriving DecidableEq, Repr

/-- `Scanner::new`. -/
def Scanner.new (source : String) : Scanner :=
  { buf := source.data, start := 0, current := 0, line := 1,
    tokens := [], errors := [], oob := false }

/-- `Scanner::reached_eof`: `self.current >= self.buf.len()`. -/
def Scanner.reached_eof (s : Scanner) : Bool :=
  s.buf.length ≤ s.current

/-- `Scanner::peek`: the next char, or NUL when out of bounds. -/
def Scanner.peek (s : Scanner) : Char :=
  if s.reached_eof then Char.ofNat 0 else s.buf.getD s.current (Char.ofNat 0)

/-- `Scanner::peek_ahead`: the char `offset` past the cursor, or NUL when out
of bounds. -/
def Scanner.peek_ahead (s : Scanner) (offset : Nat) : Char :=
  if s.buf.length ≤ s.current + offset then Char.ofNat 0
  else s.buf.getD (s.current + offset) (Char.ofNat 0)

/-- `Scanner::advance`: read `buf[current]` and step the cursor.  Rust panics
on an out-of-bounds read; the embedding returns NUL and raises `oob` instead
(the safety theorem shows `oob` never fires during a scan). -/
def Scanner.advance (s : Scanner) : Char × Scanner :=
  (s.buf.getD s.current (Char.ofNat 0),
   { s with current := s.current + 1, oob := s.oob || s.reached_eof })

/-- `Scanner::span_string`: the span `buf[start .. current]`. -/
def Scanner.span_string (s : Scanner) : List Char :=
  (s.buf.drop s.start).take (s.current - s.start)

/-- `error_log::error`, modelled as appending to the in-state sink. -/
def Scanner.report (s : Scanner) (msg : String) : Scanner :=
  { s with errors := s.errors ++ [(s.line, msg)] }

/-- `Scanner::add_token_lit`. -/
def Scanner.add_token_lit (s : Scanner) (ty : TTy) (lit : TLit) : Scanner :=
  { s with tokens := s.tokens ++ [{ ty := ty, lexeme := s.span_string, literal := lit, line := s.line }] }

/-- `Scanner::add_token`. -/
def Scanner.add_token (s : Scanner) (ty : TTy) : Scanner :=
  s.add_token_lit ty TLit.Null

/-- `Scanner::expect_many`: succeed only when strictly more than
`expected.length` chars remain past the cursor and the next chars equal
`expected`; on success advance by `expected.length`. -/
def Scanner.expect_many (s : Scanner) (expected : List Char) (yes no : TTy) : TTy × Scanner :=
  if s.buf.length ≤ s.current + expected.length then (no, s)
  else if (s.buf.drop s.current).take expected.length ≠ expected then (no, s)
  else (yes, { s with current := s.current + expected.length })

/-- The `while` loop of `Scanner::expect_string`: consume until a closing
quote or end of input, bumping `line` at each newline. -/
def Scanner.stringBody : Nat → Scanner → Scanner
  | 0, s => s
  | fuel + 1, s =>
    if s.peek ≠ '"' ∧ s.reached_eof = false then
      let s1 := if s.peek = '\n' then { s with line := s.line + 1 } else s
      Scanner.stringBody fuel (s1.advance).2
    else s

/-- `Scanner::expect_string`: scan a string literal body; on exhausted input
report "Unterminated string literal." and emit nothing, otherwise consume the
closing quote and emit a `String` token whose literal strips both quotes. -/
def Scanner.expect_string (s : Scanner) : Scanner :=
  let s' := Scanner.stringBody (s.buf.length - s.current) s
  if s'.reached_eof then s'.report "Unterminated string literal."
  else
    let s'' := (s'.advance).2
    let span := s''.span_string
    let lit := (span.drop 1).take (span.length - 2)
    s''.add_token_lit TTy.String (TLit.String lit)

/-- The first `while` loop of `Scanner::expect_number`: a maximal digit run. -/
def Scanner.numLoop1 : Nat → Scanner → Scanner
  | 0, s => s
  | fuel + 1, s =>
    if s.peek.isDigit ∧ s.reached_eof = false then
      Scanner.numLoop1 fuel (s.advance).2
    else s

/-- The second `while` loop of `Scanner::expect_number`: digits after the
dot (the eof guard is implicit: `peek` is NUL at eof, which is no digit). -/
def Scanner.numLoop2 : Nat → Scanner → Scanner
  | 0, s => s
  | fuel + 1, s =>
    if s.peek.isDigit then Scanner.numLoop2 fuel (s.advance).2 else s

/-- The numeric value of one ASCII digit. -/
def digitVal (c : Char) : Nat := c.toNat - '0'.toNat

/-- The numeric value of a digit run, most significant first. -/
def digitsToNat (cs : List Char) : Nat :=
  cs.foldl (fun acc c => 10 * acc + digitVal c) 0

/-- `str::parse::<f64>` on a scanned numeric span `digits (. digits)?`,
modelled exactly: the rational value of the decimal numeral
(all digits over ten to the number of fractional digits). -/
def parseNum (cs : List Char) : ℚ :=
  let intPart := cs.takeWhile (fun c => c ≠ '.')
  let frac := (cs.dropWhile (fun c => c ≠ '.')).drop 1
  mkRat (digitsToNat (intPart ++ frac)) (10 ^ frac.length)

/-- `Scanner::expect_number`: a maximal digit run, then a fractional part only
when a digit immediately follows the dot; emits a `Number` token whose literal
is the parsed span. -/
def Scanner.expect_number (s : Scanner) : Scanner :=
  let s1 := Scanner.numLoop1 (s.buf.length - s.current) s
  let s2 :=
    if s1.peek = '.' ∧ (s1.peek_ahead 1).isDigit then
      let s1' := (s1.advance).2
      Scanner.numLoop2 (s1'.buf.length - s1'.current) s1'
    else s1
  s2.add_token_lit TTy.Number (TLit.Number (parseNum s2.span_string))

/-- The inclusive codepoint ranges of the Unicode `Alphabetic` derived
property (Unicode 14.0.0), sorted and disjoint.  Rust's
`char::is_alphabetic`, which the scanner's identifier dispatch calls, tests
exactly this property; the table a given Rust toolchain ships tracks its
bundled Unicode version, which can differ from 14.0.0 only on codepoints
assigned since. -/
def alphabeticRanges : List (Nat × Nat) :=
  [   (0x41, 0x5A), (0x61, 0x7A), (0xAA, 0xAA), (0xB5, 0xB5),
   (0xBA, 0xBA), (0xC0, 0xD6), (0xD8, 0xF6), (0xF8, 0x2C1),
   (0x2C6, 0x2D1), (0x2E0, 0x2E4), (0x2EC, 0x2EC), (0x2EE, 0x2EE),
   (0x345, 0x345), (0x370, 0x374), (0x376, 0x377), (0x37A, 0x37D),
   (0x37F, 0x37F), (0x386, 0x386), (0x388, 0x38A), (0x38C, 0x38C),
   (0x38E, 0x3A1), (0x3A3, 0x3F5), (0x3F7, 0x481), (0x48A, 0x52F),
   (0x531, 0x556), (0x559, 0x559), (0x560, 0x588), (0x5B0, 0x5BD),
   (0x5BF, 0x5BF), (0x5C1, 0x5C2), (0x5C4, 0x5C5), (0x5C7, 0x5C7),
   (0x5D0, 0x5EA), (0x5EF, 0x5F2), (0x610, 0x61A), (0x620, 0x657),
   (0x659, 0x65F), (0x66E, 0x6D3), (0x6D5, 0x6DC), (0x6E1, 0x6E8),
   (0x6ED, 0x6EF), (0x6FA, 0x6FC), (0x6FF, 0x6FF), (0x710, 0x73F),
   (0x74D, 0x7B1), (0x7CA, 0x7EA), (0x7F4, 0x7F5), (0x7FA, 0x7FA),
   (0x800, 0x817), (0x81A, 0x82C), (0x840, 0x858), (0x860, 0x86A),
   (0x870, 0x887), (0x889, 0x88E), (0x8A0, 0x8C9), (0x8D4, 0x8DF),
   (0x8E3, 0x8E9), (0x8F0, 0x93B), (0x93D, 0x94C), (0x94E, 0x950),
   (0x955, 0x963), (0x971, 0x983), (0x985, 0x98C), (0x98F, 0x990),
   (0x993, 0x9A8), (0x9AA, 0x9B0), (0x9B2, 0x9B2), (0x9B6, 0x9B9),
   (0x9BD, 0x9C4), (0x9C7, 0x9C8), (0x9CB, 0x9CC), (0x9CE, 0x9CE),
   (0x9D7, 0x9D7), (0x9DC, 0x9DD), (0x9DF, 0x9E3), (0x9F0, 0x9F1),
   (0x9FC, 0x9FC), (0xA01, 0xA03), (0xA05, 0xA0A), (0xA0F, 0xA10),
   (0xA13, 0xA28), (0xA2A, 0xA30), (0xA32, 0xA33), (0xA35, 0xA36),
   (0xA38, 0xA39), (0xA3E, 0xA42), (0xA47, 0xA48), (0xA4B, 0xA4C),
   (0xA51, 0xA51), (0xA59, 0xA5C), (0xA5E, 0xA5E), (0xA70, 0xA75),
   (0xA81, 0xA83), (0xA85, 0xA8D), (0xA8F, 0xA91), (0xA93, 0xAA8),
   (0xAAA, 0xAB0), (0xAB2, 0xAB3), (0xAB5, 0xAB9), (0xABD, 0xAC5),
   (0xAC7, 0xAC9), (0xACB, 0xACC), (0xAD0, 0xAD0), (0xAE0, 0xAE3),
   (0xAF9, 0xAFC), (0xB01, 0xB03), (0xB05, 0xB0C), (0xB0F, 0xB10),
   (0xB13, 0xB28), (0xB2A, 0xB30), (0xB32, 0xB33), (0xB35, 0xB39),
   (0xB3D, 0xB44), (0xB47, 0xB48), (0xB4B, 0xB4C), (0xB56, 0xB57),
   (0xB5C, 0xB5D), (0xB5F, 0xB63), (0xB71, 0xB71), (0xB82, 0xB83),
   (0xB85, 0xB8A), (0xB8E, 0xB90), (0xB92, 0xB95), (0xB99, 0xB9A),
   (0xB9C, 0xB9C), (0xB9E, 0xB9F), (0xBA3, 0xBA4), (0xBA8, 0xBAA),
   (0xBAE, 0xBB9), (0xBBE, 0xBC2), (0xBC6, 0xBC8), (0xBCA, 0xBCC),
   (0xBD0, 0xBD0), (0xBD7, 0xBD7), (0xC00, 0xC03), (0xC05, 0xC0C),
   (0xC0E, 0xC10), (0xC12, 0xC28), (0xC2A, 0xC39), (0xC3D, 0xC44),
   (0xC46, 0xC48), (0xC4A, 0xC4C), (0xC55, 0xC56), (0xC58, 0xC5A),
   (0xC5D, 0xC5D), (0xC60, 0xC63), (0xC80, 0xC83), (0xC85, 0xC8C),
   (0xC8E, 0xC90), (0xC92, 0xCA8), (0xCAA, 0xCB3), (0xCB5, 0xCB9),
   (0xCBD, 0xCC4), (0xCC6, 0xCC8), (0xCCA, 0xCCC), (0xCD5, 0xCD6),
   (0xCDD, 0xCDE), (0xCE0, 0xCE3), (0xCF1, 0xCF2), (0xD00, 0xD0C),
   (0xD0E, 0xD10), (0xD12, 0xD3A), (0xD3D, 0xD44), (0xD46, 0xD48),
   (0xD4A, 0xD4C), (0xD4E, 0xD4E), (0xD54, 0xD57), (0xD5F, 0xD63),
   (0xD7A, 0xD7F), (0xD81, 0xD83), (0xD85, 0xD96), (0xD9A, 0xDB1),
   (0xDB3, 0xDBB), (0xDBD, 0xDBD), (0xDC0, 0xDC6), (0xDCF, 0xDD4),
   (0xDD6, 0xDD6), (0xDD8, 0xDDF), (0xDF2, 0xDF3), (0xE01, 0xE3A),
   (0xE40, 0xE46), (0xE4D, 0xE4D), (0xE81, 0xE82), (0xE84, 0xE84),
   (0xE86, 0xE8A), (0xE8C, 0xEA3), (0xEA5, 0xEA5), (0xEA7, 0xEB9),
   (0xEBB, 0xEBD), (0xEC0, 0xEC4), (0xEC6, 0xEC6), (0xECD, 0xECD),
   (0xEDC, 0xEDF), (0xF00, 0xF00), (0xF40, 0xF47), (0xF49, 0xF6C),
   (0xF71, 0xF81), (0xF88, 0xF97), (0xF99, 0xFBC), (0x1000, 0x1036),
   (0x1038, 0x1038), (0x103B, 0x103F), (0x1050, 0x108F), (0x109A, 0x109D),
   (0x10A0, 0x10C5), (0x10C7, 0x10C7), (0x10CD, 0x10CD), (0x10D0, 0x10FA),
   (0x10FC, 0x1248), (0x124A, 0x124D), (0x1250, 0x1256), (0x1258, 0x1258),
   (0x125A, 0x125D), (0x1260, 0x1288), (0x128A, 0x128D), (0x1290, 0x12B0),
   (0x12B2, 0x12B5), (0x12B8, 0x12BE), (0x12C0, 0x12C0), (0x12C2, 0x12C5),
   (0x12C8, 0x12D6), (0x12D8, 0x1310), (0x1312, 0x1315), (0x1318, 0x135A),
   (0x1380, 0x138F), (0x13A0, 0x13F5), (0x13F8, 0x13FD), (0x1401, 0x166C),
   (0x166F, 0x167F), (0x1681, 0x169A), (0x16A0, 0x16EA), (0x16EE, 0x16F8),
   (0x1700, 0x1713), (0x171F, 0x1733), (0x1740, 0x1753), (0x1760, 0x176C),
   (0x176E, 0x1770), (0x1772, 0x1773), (0x1780, 0x17B3), (0x17B6, 0x17C8),
   (0x17D7, 0x17D7), (0x17DC, 0x17DC), (0x1820, 0x1878), (0x1880, 0x18AA),
   (0x18B0, 0x18F5), (0x1900, 0x191E), (0x1920, 0x192B), (0x1930, 0x1938),
   (0x1950, 0x196D), (0x1970, 0x1974), (0x1980, 0x19AB), (0x19B0, 0x19C9),
   (0x1A00, 0x1A1B), (0x1A20, 0x1A5E), (0x1A61, 0x1A74), (0x1AA7, 0x1AA7),
   (0x1ABF, 0x1AC0), (0x1ACC, 0x1ACE), (0x1B00, 0x1B33), (0x1B35, 0x1B43),
   (0x1B45, 0x1B4C), (0x1B80, 0x1BA9), (0x1BAC, 0x1BAF), (0x1BBA, 0x1BE5),
   (0x1BE7, 0x1BF1), (0x1C00, 0x1C36), (0x1C4D, 0x1C4F), (0x1C5A, 0x1C7D),
   (0x1C80, 0x1C88), (0x1C90, 0x1CBA), (0x1CBD, 0x1CBF), (0x1CE9, 0x1CEC),
   (0x1CEE, 0x1CF3), (0x1CF5, 0x1CF6), (0x1CFA, 0x1CFA), (0x1D00, 0x1DBF),
   (0x1DE7, 0x1DF4), (0x1E00, 0x1F15), (0x1F18, 0x1F1D), (0x1F20, 0x1F45),
   (0x1F48, 0x1F4D), (0x1F50, 0x1F57), (0x1F59, 0x1F59), (0x1F5B, 0x1F5B),
   (0x1F5D, 0x1F5D), (0x1F5F, 0x1F7D), (0x1F80, 0x1FB4), (0x1FB6, 0x1FBC),
   (0x1FBE, 0x1FBE), (0x1FC2, 0x1FC4), (0x1FC6, 0x1FCC), (0x1FD0, 0x1FD3),
   (0x1FD6, 0x1FDB), (0x1FE0, 0x1FEC), (0x1FF2, 0x1FF4), (0x1FF6, 0x1FFC),
   (0x2071, 0x2071), (0x207F, 0x207F), (0x2090, 0x209C), (0x2102, 0x2102),
   (0x2107, 0x2107), (0x210A, 0x2113), (0x2115, 0x2115), (0x2119, 0x211D),
   (0x2124, 0x2124), (0x2126, 0x2126), (0x2128, 0x2128), (0x212A, 0x212D),
   (0x212F, 0x2139), (0x213C, 0x213F), (0x2145, 0x2149), (0x214E, 0x214E),
   (0x2160, 0x2188), (0x24B6, 0x24E9), (0x2C00, 0x2CE4), (0x2CEB, 0x2CEE),
   (0x2CF2, 0x2CF3), (0x2D00, 0x2D25), (0x2D27, 0x2D27), (0x2D2D, 0x2D2D),
   (0x2D30, 0x2D67), (0x2D6F, 0x2D6F), (0x2D80, 0x2D96), (0x2DA0, 0x2DA6),
   (0x2DA8, 0x2DAE), (0x2DB0, 0x2DB6), (0x2DB8, 0x2DBE), (0x2DC0, 0x2DC6),
   (0x2DC8, 0x2DCE), (0x2DD0, 0x2DD6), (0x2DD8, 0x2DDE), (0x2DE0, 0x2DFF),
   (0x2E2F, 0x2E2F), (0x3005, 0x3007), (0x3021, 0x3029), (0x3031, 0x3035),
   (0x3038, 0x303C), (0x3041, 0x3096), (0x309D, 0x309F), (0x30A1, 0x30FA),
   (0x30FC, 0x30FF), (0x3105, 0x312F), (0x3131, 0x318E), (0x31A0, 0x31BF),
   (0x31F0, 0x31FF), (0x3400, 0x4DBF), (0x4E00, 0xA48C), (0xA4D0, 0xA4FD),
   (0xA500, 0xA60C), (0xA610, 0xA61F), (0xA62A, 0xA62B), (0xA640, 0xA66E),
   (0xA674, 0xA67B), (0xA67F, 0xA6EF), (0xA717, 0xA71F), (0xA722, 0xA788),
   (0xA78B, 0xA7CA), (0xA7D0, 0xA7D1), (0xA7D3, 0xA7D3), (0xA7D5, 0xA7D9),
   (0xA7F2, 0xA805), (0xA807, 0xA827), (0xA840, 0xA873), (0xA880, 0xA8C3),
   (0xA8C5, 0xA8C5), (0xA8F2, 0xA8F7), (0xA8FB, 0xA8FB), (0xA8FD, 0xA8FF),
   (0xA90A, 0xA92A), (0xA930, 0xA952), (0xA960, 0xA97C), (0xA980, 0xA9B2),
   (0xA9B4, 0xA9BF), (0xA9CF, 0xA9CF), (0xA9E0, 0xA9EF), (0xA9FA, 0xA9FE),
   (0xAA00, 0xAA36), (0xAA40, 0xAA4D), (0xAA60, 0xAA76), (0xAA7A, 0xAABE),
   (0xAAC0, 0xAAC0), (0xAAC2, 0xAAC2), (0xAADB, 0xAADD), (0xAAE0, 0xAAEF),
   (0xAAF2, 0xAAF5), (0xAB01, 0xAB06), (0xAB09, 0xAB0E), (0xAB11, 0xAB16),
   (0xAB20, 0xAB26), (0xAB28, 0xAB2E), (0xAB30, 0xAB5A), (0xAB5C, 0xAB69),
   (0xAB70, 0xABEA), (0xAC00, 0xD7A3), (0xD7B0, 0xD7C6), (0xD7CB, 0xD7FB),
   (0xF900, 0xFA6D), (0xFA70, 0xFAD9), (0xFB00, 0xFB06), (0xFB13, 0xFB17),
   (0xFB1D, 0xFB28), (0xFB2A, 0xFB36), (0xFB38, 0xFB3C), (0xFB3E, 0xFB3E),
   (0xFB40, 0xFB41), (0xFB43, 0xFB44), (0xFB46, 0xFBB1), (0xFBD3, 0xFD3D),
   (0xFD50, 0xFD8F), (0xFD92, 0xFDC7), (0xFDF0, 0xFDFB), (0xFE70, 0xFE74),
   (0xFE76, 0xFEFC), (0xFF21, 0xFF3A), (0xFF41, 0xFF5A), (0xFF66, 0xFFBE),
   (0xFFC2, 0xFFC7), (0xFFCA, 0xFFCF), (0xFFD2, 0xFFD7), (0xFFDA, 0xFFDC),
   (0x10000, 0x1000B), (0x1000D, 0x10026), (0x10028, 0x1003A), (0x1003C, 0x1003D),
   (0x1003F, 0x1004D), (0x10050, 0x1005D), (0x10080, 0x100FA), (0x10140, 0x10174),
   (0x10280, 0x1029C), (0x102A0, 0x102D0), (0x10300, 0x1031F), (0x1032D, 0x1034A),
   (0x10350, 0x1037A), (0x10380, 0x1039D), (0x103A0, 0x103C3), (0x103C8, 0x103CF),
   (0x103D1, 0x103D5), (0x10400, 0x1049D), (0x104B0, 0x104D3), (0x104D8, 0x104FB),
   (0x10500, 0x10527), (0x10530, 0x10563), (0x10570, 0x1057A), (0x1057C, 0x1058A),
   (0x1058C, 0x10592), (0x10594, 0x10595), (0x10597, 0x105A1), (0x105A3, 0x105B1),
   (0x105B3, 0x105B9), (0x105BB, 0x105BC), (0x10600, 0x10736), (0x10740, 0x10755),
   (0x10760, 0x10767), (0x10780, 0x10785), (0x10787, 0x107B0), (0x107B2, 0x107BA),
   (0x10800, 0x10805), (0x10808, 0x10808), (0x1080A, 0x10835), (0x10837, 0x10838),
   (0x1083C, 0x1083C), (0x1083F, 0x10855), (0x10860, 0x10876), (0x10880, 0x1089E),
   (0x108E0, 0x108F2), (0x108F4, 0x108F5), (0x10900, 0x10915), (0x10920, 0x10939),
   (0x10980, 0x109B7), (0x109BE, 0x109BF), (0x10A00, 0x10A03), (0x10A05, 0x10A06),
   (0x10A0C, 0x10A13), (0x10A15, 0x10A17), (0x10A19, 0x10A35), (0x10A60, 0x10A7C),
   (0x10A80, 0x10A9C), (0x10AC0, 0x10AC7), (0x10AC9, 0x10AE4), (0x10B00, 0x10B35),
   (0x10B40, 0x10B55), (0x10B60, 0x10B72), (0x10B80, 0x10B91), (0x10C00, 0x10C48),
   (0x10C80, 0x10CB2), (0x10CC0, 0x10CF2), (0x10D00, 0x10D27), (0x10E80, 0x10EA9),
   (0x10EAB, 0x10EAC), (0x10EB0, 0x10EB1), (0x10F00, 0x10F1C), (0x10F27, 0x10F27),
   (0x10F30, 0x10F45), (0x10F70, 0x10F81), (0x10FB0, 0x10FC4), (0x10FE0, 0x10FF6),
   (0x11000, 0x11045), (0x11071, 0x11075), (0x11082, 0x110B8), (0x110C2, 0x110C2),
   (0x110D0, 0x110E8), (0x11100, 0x11132), (0x11144, 0x11147), (0x11150, 0x11172),
   (0x11176, 0x11176), (0x11180, 0x111BF), (0x111C1, 0x111C4), (0x111CE, 0x111CF),
   (0x111DA, 0x111DA), (0x111DC, 0x111DC), (0x11200, 0x11211), (0x11213, 0x11234),
   (0x11237, 0x11237), (0x1123E, 0x1123E), (0x11280, 0x11286), (0x11288, 0x11288),
   (0x1128A, 0x1128D), (0x1128F, 0x1129D), (0x1129F, 0x112A8), (0x112B0, 0x112E8),
   (0x11300, 0x11303), (0x11305, 0x1130C), (0x1130F, 0x11310), (0x11313, 0x11328),
   (0x1132A, 0x11330), (0x11332, 0x11333), (0x11335, 0x11339), (0x1133D, 0x11344),
   (0x11347, 0x11348), (0x1134B, 0x1134C), (0x11350, 0x11350), (0x11357, 0x11357),
   (0x1135D, 0x11363), (0x11400, 0x11441), (0x11443, 0x11445), (0x11447, 0x1144A),
   (0x1145F, 0x11461), (0x11480, 0x114C1), (0x114C4, 0x114C5), (0x114C7, 0x114C7),
   (0x11580, 0x115B5), (0x115B8, 0x115BE), (0x115D8, 0x115DD), (0x11600, 0x1163E),
   (0x11640, 0x11640), (0x11644, 0x11644), (0x11680, 0x116B5), (0x116B8, 0x116B8),
   (0x11700, 0x1171A), (0x1171D, 0x1172A), (0x11740, 0x11746), (0x11800, 0x11838),
   (0x118A0, 0x118DF), (0x118FF, 0x11906), (0x11909, 0x11909), (0x1190C, 0x11913),
   (0x11915, 0x11916), (0x11918, 0x11935), (0x11937, 0x11938), (0x1193B, 0x1193C),
   (0x1193F, 0x11942), (0x119A0, 0x119A7), (0x119AA, 0x119D7), (0x119DA, 0x119DF),
   (0x119E1, 0x119E1), (0x119E3, 0x119E4), (0x11A00, 0x11A32), (0x11A35, 0x11A3E),
   (0x11A50, 0x11A97), (0x11A9D, 0x11A9D), (0x11AB0, 0x11AF8), (0x11C00, 0x11C08),
   (0x11C0A, 0x11C36), (0x11C38, 0x11C3E), (0x11C40, 0x11C40), (0x11C72, 0x11C8F),
   (0x11C92, 0x11CA7), (0x11CA9, 0x11CB6), (0x11D00, 0x11D06), (0x11D08, 0x11D09),
   (0x11D0B, 0x11D36), (0x11D3A, 0x11D3A), (0x11D3C, 0x11D3D), (0x11D3F, 0x11D41),
   (0x11D43, 0x11D43), (0x11D46, 0x11D47), (0x11D60, 0x11D65), (0x11D67, 0x11D68),
   (0x11D6A, 0x11D8E), (0x11D90, 0x11D91), (0x11D93, 0x11D96), (0x11D98, 0x11D98),
   (0x11EE0, 0x11EF6), (0x11FB0, 0x11FB0), (0x12000, 0x12399), (0x12400, 0x1246E),
   (0x12480, 0x12543), (0x12F90, 0x12FF0), (0x13000, 0x1342E), (0x14400, 0x14646),
   (0x16800, 0x16A38), (0x16A40, 0x16A5E), (0x16A70, 0x16ABE), (0x16AD0, 0x16AED),
   (0x16B00, 0x16B2F), (0x16B40, 0x16B43), (0x16B63, 0x16B77), (0x16B7D, 0x16B8F),
   (0x16E40, 0x16E7F), (0x16F00, 0x16F4A), (0x16F4F, 0x16F87), (0x16F8F, 0x16F9F),
   (0x16FE0, 0x16FE1), (0x16FE3, 0x16FE3), (0x16FF0, 0x16FF1), (0x17000, 0x187F7),
   (0x18800, 0x18CD5), (0x18D00, 0x18D08), (0x1AFF0, 0x1AFF3), (0x1AFF5, 0x1AFFB),
   (0x1AFFD, 0x1AFFE), (0x1B000, 0x1B122), (0x1B150, 0x1B152), (0x1B164, 0x1B167),
   (0x1B170, 0x1B2FB), (0x1BC00, 0x1BC6A), (0x1BC70, 0x1BC7C), (0x1BC80, 0x1BC88),
   (0x1BC90, 0x1BC99), (0x1BC9E, 0x1BC9E), (0x1D400, 0x1D454), (0x1D456, 0x1D49C),
   (0x1D49E, 0x1D49F), (0x1D4A2, 0x1D4A2), (0x1D4A5, 0x1D4A6), (0x1D4A9, 0x1D4AC),
   (0x1D4AE, 0x1D4B9), (0x1D4BB, 0x1D4BB), (0x1D4BD, 0x1D4C3), (0x1D4C5, 0x1D505),
   (0x1D507, 0x1D50A), (0x1D50D, 0x1D514), (0x1D516, 0x1D51C), (0x1D51E, 0x1D539),
   (0x1D53B, 0x1D53E), (0x1D540, 0x1D544), (0x1D546, 0x1D546), (0x1D54A, 0x1D550),
   (0x1D552, 0x1D6A5), (0x1D6A8, 0x1D6C0), (0x1D6C2, 0x1D6DA), (0x1D6DC, 0x1D6FA),
   (0x1D6FC, 0x1D714), (0x1D716, 0x1D734), (0x1D736, 0x1D74E), (0x1D750, 0x1D76E),
   (0x1D770, 0x1D788), (0x1D78A, 0x1D7A8), (0x1D7AA, 0x1D7C2), (0x1D7C4, 0x1D7CB),
   (0x1DF00, 0x1DF1E), (0x1E000, 0x1E006), (0x1E008, 0x1E018), (0x1E01B, 0x1E021),
   (0x1E023, 0x1E024), (0x1E026, 0x1E02A), (0x1E100, 0x1E12C), (0x1E137, 0x1E13D),
   (0x1E14E, 0x1E14E), (0x1E290, 0x1E2AD), (0x1E2C0, 0x1E2EB), (0x1E7E0, 0x1E7E6),
   (0x1E7E8, 0x1E7EB), (0x1E7ED, 0x1E7EE), (0x1E7F0, 0x1E7FE), (0x1E800, 0x1E8C4),
   (0x1E900, 0x1E943), (0x1E947, 0x1E947), (0x1E94B, 0x1E94B), (0x1EE00, 0x1EE03),
   (0x1EE05, 0x1EE1F), (0x1EE21, 0x1EE22), (0x1EE24, 0x1EE24), (0x1EE27, 0x1EE27),
   (0x1EE29, 0x1EE32), (0x1EE34, 0x1EE37), (0x1EE39, 0x1EE39), (0x1EE3B, 0x1EE3B),
   (0x1EE42, 0x1EE42), (0x1EE47, 0x1EE47), (0x1EE49, 0x1EE49), (0x1EE4B, 0x1EE4B),
   (0x1EE4D, 0x1EE4F), (0x1EE51, 0x1EE52), (0x1EE54, 0x1EE54), (0x1EE57, 0x1EE57),
   (0x1EE59, 0x1EE59), (0x1EE5B, 0x1EE5B), (0x1EE5D, 0x1EE5D), (0x1EE5F, 0x1EE5F),
   (0x1EE61, 0x1EE62), (0x1EE64, 0x1EE64), (0x1EE67, 0x1EE6A), (0x1EE6C, 0x1EE72),
   (0x1EE74, 0x1EE77), (0x1EE79, 0x1EE7C), (0x1EE7E, 0x1EE7E), (0x1EE80, 0x1EE89),
   (0x1EE8B, 0x1EE9B), (0x1EEA1, 0x1EEA3), (0x1EEA5, 0x1EEA9), (0x1EEAB, 0x1EEBB),
   (0x1F130, 0x1F149), (0x1F150, 0x1F169), (0x1F170, 0x1F189), (0x20000, 0x2A6DF),
   (0x2A700, 0x2B738), (0x2B740, 0x2B81D), (0x2B820, 0x2CEA1), (0x2CEB0, 0x2EBE0),
   (0x2F800, 0x2FA1D), (0x30000, 0x3134A)]

/-- The inclusive codepoint ranges of the Unicode number categories `Nd`,
`Nl` and `No` (Unicode 14.0.0), sorted and disjoint: the property behind
Rust's `char::is_numeric`. -/
def numericRanges : List (Nat × Nat) :=
  [   (0x30, 0x39), (0xB2, 0xB3), (0xB9, 0xB9), (0xBC, 0xBE),
   (0x660, 0x669), (0x6F0, 0x6F9), (0x7C0, 0x7C9), (0x966, 0x96F),
   (0x9E6, 0x9EF), (0x9F4, 0x9F9), (0xA66, 0xA6F), (0xAE6, 0xAEF),
   (0xB66, 0xB6F), (0xB72, 0xB77), (0xBE6, 0xBF2), (0xC66, 0xC6F),
   (0xC78, 0xC7E), (0xCE6, 0xCEF), (0xD58, 0xD5E), (0xD66, 0xD78),
   (0xDE6, 0xDEF), (0xE50, 0xE59), (0xED0, 0xED9), (0xF20, 0xF33),
   (0x1040, 0x1049), (0x1090, 0x1099), (0x1369, 0x137C), (0x16EE, 0x16F0),
   (0x17E0, 0x17E9), (0x17F0, 0x17F9), (0x1810, 0x1819), (0x1946, 0x194F),
   (0x19D0, 0x19DA), (0x1A80, 0x1A89), (0x1A90, 0x1A99), (0x1B50, 0x1B59),
   (0x1BB0, 0x1BB9), (0x1C40, 0x1C49), (0x1C50, 0x1C59), (0x2070, 0x2070),
   (0x2074, 0x2079), (0x2080, 0x2089), (0x2150, 0x2182), (0x2185, 0x2189),
   (0x2460, 0x249B), (0x24EA, 0x24FF), (0x2776, 0x2793), (0x2CFD, 0x2CFD),
   (0x3007, 0x3007), (0x3021, 0x3029), (0x3038, 0x303A), (0x3192, 0x3195),
   (0x3220, 0x3229), (0x3248, 0x324F), (0x3251, 0x325F), (0x3280, 0x3289),
   (0x32B1, 0x32BF), (0xA620, 0xA629), (0xA6E6, 0xA6EF), (0xA830, 0xA835),
   (0xA8D0, 0xA8D9), (0xA900, 0xA909), (0xA9D0, 0xA9D9), (0xA9F0, 0xA9F9),
   (0xAA50, 0xAA59), (0xABF0, 0xABF9), (0xFF10, 0xFF19), (0x10107, 0x10133),
   (0x10140, 0x10178), (0x1018A, 0x1018B), (0x102E1, 0x102FB), (0x10320, 0x10323),
   (0x10341, 0x10341), (0x1034A, 0x1034A), (0x103D1, 0x103D5), (0x104A0, 0x104A9),
   (0x10858, 0x1085F), (0x10879, 0x1087F), (0x108A7, 0x108AF), (0x108FB, 0x108FF),
   (0x10916, 0x1091B), (0x109BC, 0x109BD), (0x109C0, 0x109CF), (0x109D2, 0x109FF),
   (0x10A40, 0x10A48), (0x10A7D, 0x10A7E), (0x10A9D, 0x10A9F), (0x10AEB, 0x10AEF),
   (0x10B58, 0x10B5F), (0x10B78, 0x10B7F), (0x10BA9, 0x10BAF), (0x10CFA, 0x10CFF),
   (0x10D30, 0x10D39), (0x10E60, 0x10E7E), (0x10F1D, 0x10F26), (0x10F51, 0x10F54),
   (0x10FC5, 0x10FCB), (0x11052, 0x1106F), (0x110F0, 0x110F9), (0x11136, 0x1113F),
   (0x111D0, 0x111D9), (0x111E1, 0x111F4), (0x112F0, 0x112F9), (0x11450, 0x11459),
   (0x114D0, 0x114D9), (0x11650, 0x11659), (0x116C0, 0x116C9), (0x11730, 0x1173B),
   (0x118E0, 0x118F2), (0x11950, 0x11959), (0x11C50, 0x11C6C), (0x11D50, 0x11D59),
   (0x11DA0, 0x11DA9), (0x11FC0, 0x11FD4), (0x12400, 0x1246E), (0x16A60, 0x16A69),
   (0x16AC0, 0x16AC9), (0x16B50, 0x16B59), (0x16B5B, 0x16B61), (0x16E80, 0x16E96),
   (0x1D2E0, 0x1D2F3), (0x1D360, 0x1D378), (0x1D7CE, 0x1D7FF), (0x1E140, 0x1E149),
   (0x1E2F0, 0x1E2F9), (0x1E8C7, 0x1E8CF), (0x1E950, 0x1E959), (0x1EC71, 0x1ECAB),
   (0x1ECAD, 0x1ECAF), (0x1ECB1, 0x1ECB4), (0x1ED01, 0x1ED2D), (0x1ED2F, 0x1ED3D),
   (0x1F100, 0x1F10C), (0x1FBF0, 0x1FBF9)]

/-- Membership of a codepoint in a range table. -/
def inRanges (rs : List (Nat × Nat)) (n : Nat) : Bool :=
  rs.any (fun r => r.1 ≤ n ∧ n ≤ r.2)

/-- Rust's Unicode-aware `char::is_alphabetic`: the Unicode `Alphabetic`
derived property. -/
def isAlphabetic (c : Char) : Bool :=
  inRanges alphabeticRanges c.toNat

/-- Rust's Unicode-aware `char::is_alphanumeric`, defined in the standard
library as `is_alphabetic || is_numeric`. -/
def isAlphanumeric (c : Char) : Bool :=
  isAlphabetic c || inRanges numericRanges c.toNat

/-- The `while` loop of `Scanner::expect_ident`: a maximal alphanumeric
run. -/
def Scanner.identLoop : Nat → Scanner → Scanner
  | 0, s => s
  | fuel + 1, s =>
    if isAlphanumeric s.peek then Scanner.identLoop fuel (s.advance).2 else s

/-- `Scanner::expect_ident`: finish the identifier span, then match it exactly
(and case-sensitively) against the keyword table; `True`/`False` carry boolean
literals, every non-keyword span yields a plain `Ident` with no literal.
(The `True`/`False` arms are tested first here; the match arms of the source
are mutually exclusive, so the order does not change the result.) -/
def Scanner.expect_ident (s : Scanner) : Scanner :=
  let s' := Scanner.identLoop (s.buf.length - s.current) s
  let span := s'.span_string
  if span = "True".data then s'.add_token_lit TTy.True (TLit.Bool true)
  else if span = "False".data then s'.add_token_lit TTy.False (TLit.Bool false)
  else if span = "and".data then s'.add_token TTy.And
  else if span = "class".data then s'.add_token TTy.Class
  else if span = "else".data then s'.add_token TTy.Else
  else if span = "for".data then s'.add_token TTy.For
  else if span = "fn".data then s'.add_token TTy.Fn
  else if span = "if".data then s'.add_token TTy.If
  else if span = "null".data then s'.add_token TTy.Null
  else if span = "or".data then s'.add_token TTy.Or
  else if span = "print".data then s'.add_token TTy.Print
  else if span = "ret".data then s'.add_token TTy.Return
  else if span = "super".data then s'.add_token TTy.Super
  else if span = "self".data then s'.add_token TTy.This
  else if span = "var".data then s'.add_token TTy.Var
  else if span = "while".data then s'.add_token TTy.While
  else s'.add_token TTy.Ident

/-- The `while` loop of the line-comment arm of `Scanner::scan_token`:
consume up to, and not including, the next newline or end of input. -/
def Scanner.commentLoop : Nat → Scanner → Scanner
  | 0, s => s
  | fuel + 1, s =>
    if s.peek ≠ '\n' ∧ s.reached_eof = false then
      Scanner.commentLoop fuel (s.advance).2
    else s

/-- `Scanner::scan_token`: consume one char and dispatch. -/
def Scanner.scan_token (s : Scanner) : Scanner :=
  let p := s.advance
  let ch := p.1
  let s := p.2
  if ch = '(' then s.add_token TTy.LParen
  else if ch = ')' then s.add_token TTy.RParen
  else if ch = '{' then s.add_token TTy.LBrace
  else if ch = '}' then s.add_token TTy.RBrace
  else if ch = ',' then s.add_token TTy.Comma
  else if ch = '.' then s.add_token TTy.Period
  else if ch = '-' then s.add_token TTy.Minus
  else if ch = '+' then s.add_token TTy.Plus
  else if ch = ';' then s.add_token TTy.Semicolon
  else if ch = '*' then s.add_token TTy.Asterisk
  else if ch = '!' then
    let q := s.expect_many ['='] TTy.BangEq TTy.Bang
    q.2.add_token q.1
  else if ch = '=' then
    let q := s.expect_many ['='] TTy.EqEq TTy.Eq
    q.2.add_token q.1
  else if ch = '<' then
    let q := s.expect_many ['='] TTy.LtEq TTy.Lt
    q.2.add_token q.1
  else if ch = '>' then
    let q := s.expect_many ['='] TTy.GtEq TTy.Gt
    q.2.add_token q.1
  else if ch = '/' then
    let q := s.expect_many ['/'] TTy.Null TTy.FSlash
    if q.1 = TTy.Null then Scanner.commentLoop (q.2.buf.length - q.2.current) q.2
    else q.2.add_token TTy.FSlash
  else if ch = '"' then s.expect_string
  else if ch = ' ' ∨ ch = '\r' ∨ ch = '\t' then s
  else if ch = '\n' then { s with line := s.line + 1 }
  else if ch.isDigit then s.expect_number
  else if isAlphabetic ch then s.expect_ident
  else s.report "Unexpected char."

/-- The main loop of `Scanner::scan_tokens`: while not at eof, mark the span
start and scan one token. -/
def Scanner.scanLoop : Nat → Scanner → Scanner
  | 0, s => s
  | fuel + 1, s =>
    if s.reached_eof = false then
      Scanner.scanLoop fuel ({ s with start := s.current }).scan_token
    else s

/-- The final scanner state when the main loop finishes. -/
def Scanner.runScan (s : Scanner) : Scanner :=
  Scanner.scanLoop (s.buf.length - s.current) s

/-- `Scanner::scan_tokens`: drain the scanner, then append the EOF marker
bearing the final line number. -/
def Scanner.scan_tokens (s : Scanner) : List Token :=
  let s' := s.runScan
  s'.tokens ++ [{ ty := TTy.EOF, lexeme := [], literal := TLit.Null, line := s'.line }]

/-- One full scan of a source text: the token list. -/
def scanTokens (source : String) : List Token :=
  (Scanner.new source).scan_tokens

/-- One full scan of a source text: the final scanner state (for the error
sink, line counter and cursor). -/
def scanState (source : String) : Scanner :=
  (Scanner.new source).runScan

/-- The invariant one `scan_token` step preserves, relating the state `s` at
the top of the main loop (span start just marked, cursor strictly inside the
buffer) to the state `t` after the step: the buffer and the oob flag are
untouched, the cursor strictly advances but stays within bounds, the line
counter grows by exactly the number of newlines consumed, at most one token
is appended (never the end-marker, never with an empty lexeme, with a line
stamp between the old and new line counters), and the error sink only grows. -/
def StepOK (s t : Scanner) : Prop :=
  t.buf = s.buf ∧
  t.oob = s.oob ∧
  s.current < t.current ∧
  t.current ≤ s.buf.length ∧
  t.line = s.line + ((s.buf.drop s.current).take (t.current - s.current)).count '\n' ∧
  (t.tokens = s.tokens ∨
    ∃ tok, t.tokens = s.tokens ++ [tok] ∧ tok.ty ≠ TTy.EOF ∧ tok.lexeme ≠ [] ∧
      s.line ≤ tok.line ∧ tok.line ≤ t.line) ∧
  ∃ es, t.errors = s.errors ++ es

/-! ## Basic lemmas about the scanner state operations -/

theorem Scanner.advance_snd (s : Scanner) :
    (s.advance).2 = { s with current := s.current + 1, oob := s.oob || s.reached_eof } := rfl

@[simp] theorem Scanner.advance_snd_buf (s : Scanner) : (s.advance).2.buf = s.buf := rfl

@[simp] theorem Scanner.advance_snd_start (s : Scanner) : (s.advance).2.start = s.start := rfl

@[simp] theorem Scanner.advance_snd_current (s : Scanner) :
    (s.advance).2.current = s.current + 1 := rfl

@[simp] theorem Scanner.advance_snd_line (s : Scanner) : (s.advance).2.line = s.line := rfl

@[simp] theorem Scanner.advance_snd_tokens (s : Scanner) : (s.advance).2.tokens = s.tokens := rfl

@[simp] theorem Scanner.advance_snd_errors (s : Scanner) : (s.advance).2.errors = s.errors := rfl

theorem Scanner.advance_snd_oob (s : Scanner) :
    (s.advance).2.oob = (s.oob || s.reached_eof) := rfl

@[simp] theorem Scanner.advance_fst (s : Scanner) :
    (s.advance).1 = s.buf.getD s.current (Char.ofNat 0) := rfl

theorem Scanner.reached_eof_false_iff (s : Scanner) :
    s.reached_eof = false ↔ s.current < s.buf.length := by
  simp [Scanner.reached_eof]

theorem Scanner.reached_eof_true_iff (s : Scanner) :
    s.reached_eof = true ↔ s.buf.length ≤ s.current := by
  simp [Scanner.reached_eof]

theorem Scanner.peek_of_lt (s : Scanner) (h : s.current < s.buf.length) :
    s.peek = s.buf.getD s.current (Char.ofNat 0) := by
  simp [Scanner.peek, Scanner.reached_eof, Nat.not_le.mpr h]

theorem Scanner.peek_of_eof (s : Scanner) (h : s.buf.length ≤ s.current) :
    s.peek = Char.ofNat 0 := by
  simp [Scanner.peek, Scanner.reached_eof, h]

/-- Splitting the unread part of the buffer at an in-bounds cursor. -/
theorem drop_cursor_cons (l : List Char) (n : Nat) (h : n < l.length) :
    l.drop n = l.getD n (Char.ofNat 0) :: l.drop (n + 1) := by
  rw [List.getD_eq_getElem l _ h]
  exact List.drop_eq_getElem_cons h

/-- NUL is not a digit, not alphanumeric, and not a quote or newline. -/
theorem nul_props : (Char.ofNat 0).isDigit = false ∧ isAlphanumeric (Char.ofNat 0) = false ∧
    Char.ofNat 0 ≠ '"' ∧ Char.ofNat 0 ≠ '\n' := by decide

/-! ## Closed forms for the scanning loops -/

/-- `numLoop1` consumes exactly the maximal digit run at the cursor. -/
theorem Scanner.numLoop1_eq : ∀ (fuel : Nat) (s : Scanner),
    s.buf.length - s.current ≤ fuel →
    Scanner.numLoop1 fuel s =
      { s with current := s.current + ((s.buf.drop s.current).takeWhile Char.isDigit).length }
  | 0, s, hf => by
    have hle : s.buf.length ≤ s.current := by omega
    simp [Scanner.numLoop1, List.drop_eq_nil_of_le hle]
  | fuel + 1, s, hf => by
    by_cases hlt : s.current < s.buf.length
    · have hd := drop_cursor_cons s.buf s.current hlt
      have hpeek := s.peek_of_lt hlt
      have hne : s.reached_eof = false := s.reached_eof_false_iff.mpr hlt
      by_cases hdig : (s.buf.getD s.current (Char.ofNat 0)).isDigit = true
      · have hrec := Scanner.numLoop1_eq fuel (s.advance).2 (by simp; omega)
        rw [Scanner.numLoop1]
        rw [if_pos ⟨by rw [hpeek]; exact hdig, hne⟩]
        rw [hrec, Scanner.advance_snd]
        simp only [hne, Bool.or_false]
        rw [hd, List.takeWhile_cons, if_pos hdig]
        simp only [Scanner.mk.injEq, List.length_cons, eq_self_iff_true, and_true, true_and]
        omega
      · rw [Scanner.numLoop1]
        rw [if_neg (by rw [hpeek]; exact fun hc => hdig hc.1)]
        rw [hd, List.takeWhile_cons, if_neg hdig]
        simp
    · have hle : s.buf.length ≤ s.current := by omega
      simp [Scanner.numLoop1, s.peek_of_eof hle, nul_props.1, List.drop_eq_nil_of_le hle]

/-- `numLoop2` consumes exactly the maximal digit run at the cursor (its eof
guard is implicit: `peek` is NUL at eof, which is no digit). -/
theorem Scanner.numLoop2_eq : ∀ (fuel : Nat) (s : Scanner),
    s.buf.length - s.current ≤ fuel →
    Scanner.numLoop2 fuel s =
      { s with current := s.current + ((s.buf.drop s.current).takeWhile Char.isDigit).length }
  | 0, s, hf => by
    have hle : s.buf.length ≤ s.current := by omega
    simp [Scanner.numLoop2, List.drop_eq_nil_of_le hle]
  | fuel + 1, s, hf => by
    by_cases hlt : s.current < s.buf.length
    · have hd := drop_cursor_cons s.buf s.current hlt
      have hpeek := s.peek_of_lt hlt
      have hne : s.reached_eof = false := s.reached_eof_false_iff.mpr hlt
      by_cases hdig : (s.buf.getD s.current (Char.ofNat 0)).isDigit = true
      · have hrec := Scanner.numLoop2_eq fuel (s.advance).2 (by simp; omega)
        rw [Scanner.numLoop2]
        rw [if_pos (by rw [hpeek]; exact hdig)]
        rw [hrec, Scanner.advance_snd]
        simp only [hne, Bool.or_false]
        rw [hd, List.takeWhile_cons, if_pos hdig]
        simp only [Scanner.mk.injEq, List.length_cons, eq_self_iff_true, and_true, true_and]
        omega
      · rw [Scanner.numLoop2]
        rw [if_neg (by rw [hpeek]; exact hdig)]
        rw [hd, List.takeWhile_cons, if_neg hdig]
        simp
    · have hle : s.buf.length ≤ s.current := by omega
      simp [Scanner.numLoop2, s.peek_of_eof hle, nul_props.1, List.drop_eq_nil_of_le hle]

/-- `identLoop` consumes exactly the maximal alphanumeric run at the cursor. -/
theorem Scanner.identLoop_eq : ∀ (fuel : Nat) (s : Scanner),
    s.buf.length - s.current ≤ fuel →
    Scanner.identLoop fuel s =
      { s with current := s.current + ((s.buf.drop s.current).takeWhile isAlphanumeric).length }
  | 0, s, hf => by
    have hle : s.buf.length ≤ s.current := by omega
    simp [Scanner.identLoop, List.drop_eq_nil_of_le hle]
  | fuel + 1, s, hf => by
    by_cases hlt : s.current < s.buf.length
    · have hd := drop_cursor_cons s.buf s.current hlt
      have hpeek := s.peek_of_lt hlt
      have hne : s.reached_eof = false := s.reached_eof_false_iff.mpr hlt
      by_cases haln : isAlphanumeric (s.buf.getD s.current (Char.ofNat 0)) = true
      · have hrec := Scanner.identLoop_eq fuel (s.advance).2 (by simp; omega)
        rw [Scanner.identLoop]
        rw [if_pos (by rw [hpeek]; exact haln)]
        rw [hrec, Scanner.advance_snd]
        simp only [hne, Bool.or_false]
        rw [hd, List.takeWhile_cons, if_pos haln]
        simp only [Scanner.mk.injEq, List.length_cons, eq_self_iff_true, and_true, true_and]
        omega
      · rw [Scanner.identLoop]
        rw [if_neg (by rw [hpeek]; exact haln)]
        rw [hd, List.takeWhile_cons, if_neg haln]
        simp
    · have hle : s.buf.length ≤ s.current := by omega
      simp [Scanner.identLoop, s.peek_of_eof hle, nul_props.2.1, List.drop_eq_nil_of_le hle]

/-- `commentLoop` consumes exactly up to, and not including, the next newline
or end of input. -/
theorem Scanner.commentLoop_eq : ∀ (fuel : Nat) (s : Scanner),
    s.buf.length - s.current ≤ fuel →
    Scanner.commentLoop fuel s =
      { s with current := s.current + ((s.buf.drop s.current).takeWhile (fun c => c ≠ '\n')).length }
  | 0, s, hf => by
    have hle : s.buf.length ≤ s.current := by omega
    simp [Scanner.commentLoop, List.drop_eq_nil_of_le hle]
  | fuel + 1, s, hf => by
    by_cases hlt : s.current < s.buf.length
    · have hd := drop_cursor_cons s.buf s.current hlt
      have hpeek := s.peek_of_lt hlt
      have hne : s.reached_eof = false := s.reached_eof_false_iff.mpr hlt
      by_cases hnl : s.buf.getD s.current (Char.ofNat 0) = '\n'
      · rw [Scanner.commentLoop]
        rw [if_neg (by rw [hpeek]; exact fun hc => hc.1 hnl)]
        rw [hd, List.takeWhile_cons,
          if_neg (by simp only [decide_eq_true_eq]; exact fun hc => hc hnl)]
        simp
      · have hrec := Scanner.commentLoop_eq fuel (s.advance).2 (by simp; omega)
        rw [Scanner.commentLoop]
        rw [if_pos ⟨by rw [hpeek]; exact hnl, hne⟩]
        rw [hrec, Scanner.advance_snd]
        simp only [hne, Bool.or_false]
        rw [hd, List.takeWhile_cons, if_pos (by simp only [decide_eq_true_eq]; exact hnl)]
        simp only [Scanner.mk.injEq, List.length_cons, eq_self_iff_true, and_true, true_and]
        omega
    · have hle : s.buf.length ≤ s.current := by omega
      have : s.reached_eof = true := s.reached_eof_true_iff.mpr hle
      simp [Scanner.commentLoop, this, List.drop_eq_nil_of_le hle]

/-- `stringBody` consumes exactly up to the closing quote or end of input,
incrementing the line counter once per consumed newline. -/
theorem Scanner.stringBody_eq : ∀ (fuel : Nat) (s : Scanner),
    s.buf.length - s.current ≤ fuel →
    Scanner.stringBody fuel s =
      { s with
        current := s.current + ((s.buf.drop s.current).takeWhile (fun c => c ≠ '"')).length,
        line := s.line + ((s.buf.drop s.current).takeWhile (fun c => c ≠ '"')).count '\n' }
  | 0, s, hf => by
    have hle : s.buf.length ≤ s.current := by omega
    simp [Scanner.stringBody, List.drop_eq_nil_of_le hle]
  | fuel + 1, s, hf => by
    by_cases hlt : s.current < s.buf.length
    · have hd := drop_cursor_cons s.buf s.current hlt
      have hpeek := s.peek_of_lt hlt
      have hne : s.reached_eof = false := s.reached_eof_false_iff.mpr hlt
      by_cases hq : s.buf.getD s.current (Char.ofNat 0) = '"'
      · rw [Scanner.stringBody]
        rw [if_neg (by rw [hpeek]; exact fun hc => hc.1 hq)]
        rw [hd, List.takeWhile_cons,
          if_neg (by simp only [decide_eq_true_eq]; exact fun hc => hc hq)]
        simp
      · rw [Scanner.stringBody]
        rw [if_pos ⟨by rw [hpeek]; exact hq, hne⟩]
        by_cases hnl : s.buf.getD s.current (Char.ofNat 0) = '\n'
        · rw [if_pos (by rw [hpeek]; exact hnl)]
          have hrec := Scanner.stringBody_eq fuel
            ({ s with line := s.line + 1 }.advance).2 (by simp; omega)
          rw [hrec, Scanner.advance_snd]
          have hne' : ({ s with line := s.line + 1 } : Scanner).reached_eof = false := by
            simpa [Scanner.reached_eof] using hne
          simp only [hne', Bool.or_false]
          rw [hd, List.takeWhile_cons, if_pos (by simp only [decide_eq_true_eq]; exact hq)]
          rw [List.count_cons, if_pos (beq_iff_eq.mpr hnl)]
          simp only [Scanner.mk.injEq, List.length_cons, eq_self_iff_true, and_true, true_and]
          omega
        · rw [if_neg (by rw [hpeek]; exact hnl)]
          have hrec := Scanner.stringBody_eq fuel (s.advance).2 (by simp; omega)
          rw [hrec, Scanner.advance_snd]
          simp only [hne, Bool.or_false]
          rw [hd, List.takeWhile_cons, if_pos (by simp only [decide_eq_true_eq]; exact hq)]
          rw [List.count_cons, if_neg (by simp only [beq_iff_eq]; exact hnl)]
          simp only [Scanner.mk.injEq, List.length_cons, eq_self_iff_true, and_true, true_and]
          omega
    · have hle : s.buf.length ≤ s.current := by omega
      have : s.reached_eof = true := s.reached_eof_true_iff.mpr hle
      simp [Scanner.stringBody, this, List.drop_eq_nil_of_le hle]

/-! ## Sub-scanner characterizations -/

theorem Scanner.peek_eq_getD (s : Scanner) :
    s.peek = s.buf.getD s.current (Char.ofNat 0) := by
  by_cases h : s.current < s.buf.length
  · exact s.peek_of_lt h
  · rw [s.peek_of_eof (by omega), List.getD_eq_default _ _ (by omega)]

theorem Scanner.peek_ahead_eq_getD (s : Scanner) (n : Nat) :
    s.peek_ahead n = s.buf.getD (s.current + n) (Char.ofNat 0) := by
  unfold Scanner.peek_ahead
  by_cases h : s.buf.length ≤ s.current + n
  · rw [if_pos h, List.getD_eq_default _ _ h]
  · rw [if_neg h]

/-- The lookahead-match helper in closed form: it matches exactly when
strictly more than `expected.length` characters remain past the cursor and
they begin with `expected`; a match advances the cursor by the match length
and a failed match leaves the state untouched. -/
theorem Scanner.expect_many_eq (s : Scanner) (expected : List Char) (yes no : TTy) :
    s.expect_many expected yes no =
      if expected.length < s.buf.length - s.current ∧ expected <+: s.buf.drop s.current
      then (yes, { s with current := s.current + expected.length })
      else (no, s) := by
  unfold Scanner.expect_many
  by_cases h1 : s.buf.length ≤ s.current + expected.length
  · rw [if_pos h1, if_neg (fun hc => by omega)]
  · rw [if_neg h1]
    by_cases h2 : (s.buf.drop s.current).take expected.length = expected
    · rw [if_neg (by simp [h2]),
        if_pos ⟨by omega, List.prefix_iff_eq_take.mpr h2.symm⟩]
    · rw [if_pos (by simp [h2]), if_neg (fun hc => h2 (List.prefix_iff_eq_take.mp hc.2).symm)]

/-- The first character past a maximal `takeWhile` run fails the predicate. -/
theorem takeWhile_stop (p : Char → Bool) (d : Char) : ∀ (l : List Char),
    (l.takeWhile p).length < l.length →
    p (l.getD (l.takeWhile p).length d) = false
  | [], h => by simp at h
  | a :: t, h => by
    by_cases hp : p a = true
    · rw [List.takeWhile_cons, if_pos hp] at h ⊢
      simpa using takeWhile_stop p d t (by simpa using h)
    · rw [List.takeWhile_cons, if_neg hp] at h ⊢
      simpa using hp

/-- Taking exactly the length of the `takeWhile` run recovers the run. -/
theorem take_takeWhile_length (p : Char → Bool) (l : List Char) :
    l.take (l.takeWhile p).length = l.takeWhile p :=
  (List.prefix_iff_eq_take.mp (List.takeWhile_prefix p)).symm

/-- A `takeWhile` run of characters other than `c` contains no `c`. -/
theorem count_takeWhile_ne (c : Char) (l : List Char) :
    (l.takeWhile (fun x => x ≠ c)).count c = 0 := by
  rw [List.count_eq_zero]
  intro hm
  have := List.mem_takeWhile_imp hm
  simp at this

/-- A digit run contains no newline. -/
theorem count_nl_takeWhile_digit (l : List Char) :
    (l.takeWhile Char.isDigit).count '\n' = 0 := by
  rw [List.count_eq_zero]
  intro hm
  have := List.mem_takeWhile_imp hm
  simp at this

/-- An alphanumeric run contains no newline. -/
theorem count_nl_takeWhile_alnum (l : List Char) :
    (l.takeWhile isAlphanumeric).count '\n' = 0 := by
  rw [List.count_eq_zero]
  intro hm
  have := List.mem_takeWhile_imp hm
  exact absurd this (by decide)

/-- A `getD` that returns something other than the default is in bounds. -/
theorem getD_ne_imp_lt (l : List Char) (n : Nat) (d : Char) (h : l.getD n d ≠ d) :
    n < l.length := by
  by_contra hc
  exact h (List.getD_eq_default _ _ (by omega))

/-- `expect_string` when no closing quote remains: the whole rest of the
buffer is consumed, the line counter absorbs its newlines, one error is
reported at the final line, and no token is emitted. -/
theorem Scanner.expect_string_unterminated (s : Scanner)
    (h : ((s.buf.drop s.current).takeWhile (fun c => c ≠ '"')).length =
         (s.buf.drop s.current).length) :
    Scanner.expect_string s =
      { s with
        current := s.current + ((s.buf.drop s.current).takeWhile (fun c => c ≠ '"')).length,
        line := s.line + ((s.buf.drop s.current).takeWhile (fun c => c ≠ '"')).count '\n',
        errors := s.errors ++
          [(s.line + ((s.buf.drop s.current).takeWhile (fun c => c ≠ '"')).count '\n',
            "Unterminated string literal.")] } := by
  have hlen : (s.buf.drop s.current).length = s.buf.length - s.current :=
    List.length_drop _ _
  simp only [Scanner.expect_string]
  rw [Scanner.stringBody_eq _ s (le_refl _)]
  rw [if_pos (by simp only [Scanner.reached_eof, decide_eq_true_eq]; omega)]
  simp [Scanner.report]

/-- `expect_string` when a closing quote exists: the body and both quotes are
consumed, the line counter absorbs the body's newlines, and one `String`
token is emitted whose literal strips the surrounding quotes. -/
theorem Scanner.expect_string_closed (s : Scanner)
    (h : ((s.buf.drop s.current).takeWhile (fun c => c ≠ '"')).length <
         (s.buf.drop s.current).length) :
    Scanner.expect_string s =
      (let body := (s.buf.drop s.current).takeWhile (fun c => c ≠ '"')
       let c' := s.current + body.length + 1
       let sp := (s.buf.drop s.start).take (c' - s.start)
       { s with
         current := c',
         line := s.line + body.count '\n',
         tokens := s.tokens ++
           [{ ty := TTy.String, lexeme := sp,
              literal := TLit.String ((sp.drop 1).take (sp.length - 2)),
              line := s.line + body.count '\n' }] }) := by
  have hlen : (s.buf.drop s.current).length = s.buf.length - s.current :=
    List.length_drop _ _
  have hlt : s.current + ((s.buf.drop s.current).takeWhile (fun c => c ≠ '"')).length <
      s.buf.length := by omega
  simp only [Scanner.expect_string]
  rw [Scanner.stringBody_eq _ s (le_refl _)]
  rw [if_neg (by simp only [Scanner.reached_eof, decide_eq_true_eq]; omega)]
  have hne : ({ s with
      current := s.current + ((s.buf.drop s.current).takeWhile (fun c => c ≠ '"')).length,
      line := s.line + ((s.buf.drop s.current).takeWhile (fun c => c ≠ '"')).count '\n' } :
      Scanner).reached_eof = false := by
    simp only [Scanner.reached_eof, decide_eq_false_iff_not]
    omega
  simp only [Scanner.advance_snd, hne, Bool.or_false, Scanner.add_token_lit,
    Scanner.span_string]

/-- `expect_number` in closed form: consume the maximal digit run, then the
dot and a second digit run only when a digit immediately follows the dot, and
emit one `Number` token for the span. -/
theorem Scanner.expect_number_eq (s : Scanner) :
    Scanner.expect_number s =
      (let d1 := ((s.buf.drop s.current).takeWhile Char.isDigit).length
       let c1 := s.current + d1
       let c2 := if s.buf.getD c1 (Char.ofNat 0) = '.' ∧
                    (s.buf.getD (c1 + 1) (Char.ofNat 0)).isDigit = true
                 then c1 + 1 + ((s.buf.drop (c1 + 1)).takeWhile Char.isDigit).length
                 else c1
       let sp := (s.buf.drop s.start).take (c2 - s.start)
       { s with
         current := c2,
         tokens := s.tokens ++
           [{ ty := TTy.Number, lexeme := sp,
              literal := TLit.Number (parseNum sp), line := s.line }] }) := by
  simp only [Scanner.expect_number]
  rw [Scanner.numLoop1_eq _ s (le_refl _)]
  simp only [Scanner.peek_eq_getD, Scanner.peek_ahead_eq_getD]
  by_cases hdot : s.buf.getD
        (s.current + ((s.buf.drop s.current).takeWhile Char.isDigit).length) (Char.ofNat 0) = '.' ∧
      (s.buf.getD
        (s.current + ((s.buf.drop s.current).takeWhile Char.isDigit).length + 1)
        (Char.ofNat 0)).isDigit = true
  · have hc1 : s.current + ((s.buf.drop s.current).takeWhile Char.isDigit).length <
        s.buf.length :=
      getD_ne_imp_lt _ _ _ (by rw [hdot.1]; decide)
    have hne : ({ s with
        current := s.current + ((s.buf.drop s.current).takeWhile Char.isDigit).length } :
        Scanner).reached_eof = false := by
      simp only [Scanner.reached_eof, decide_eq_false_iff_not]
      omega
    rw [if_pos (by simpa using hdot), if_pos hdot]
    rw [Scanner.numLoop2_eq _ _ (le_refl _)]
    simp only [Scanner.advance_snd, hne, Bool.or_false, Scanner.add_token_lit,
      Scanner.span_string]
  · rw [if_neg (by simpa using hdot), if_neg hdot]
    simp only [Scanner.add_token_lit, Scanner.span_string]

/-- `expect_ident` always emits exactly one token, never the end-marker,
whose lexeme is the completed span and whose line is unchanged. -/
theorem Scanner.expect_ident_parts (s : Scanner) :
    ∃ ty lit, ty ≠ TTy.EOF ∧
      Scanner.expect_ident s =
        { s with
          current := s.current + ((s.buf.drop s.current).takeWhile isAlphanumeric).length,
          tokens := s.tokens ++
            [{ ty := ty,
               lexeme := (s.buf.drop s.start).take
                 (s.current + ((s.buf.drop s.current).takeWhile isAlphanumeric).length - s.start),
               literal := lit, line := s.line }] } := by
  simp only [Scanner.expect_ident]
  rw [Scanner.identLoop_eq _ s (le_refl _)]
  simp only [Scanner.add_token, Scanner.add_token_lit, Scanner.span_string]
  generalize (s.buf.drop s.start).take
      (s.current + ((s.buf.drop s.current).takeWhile isAlphanumeric).length - s.start) = sp
  by_cases e1 : sp = "True".data
  · rw [if_pos e1]
    exact ⟨TTy.True, TLit.Bool true, by decide, rfl⟩
  rw [if_neg e1]
  by_cases e2 : sp = "False".data
  · rw [if_pos e2]
    exact ⟨TTy.False, TLit.Bool false, by decide, rfl⟩
  rw [if_neg e2]
  by_cases e3 : sp = "and".data
  · rw [if_pos e3]
    exact ⟨TTy.And, TLit.Null, by decide, rfl⟩
  rw [if_neg e3]
  by_cases e4 : sp = "class".data
  · rw [if_pos e4]
    exact ⟨TTy.Class, TLit.Null, by decide, rfl⟩
  rw [if_neg e4]
  by_cases e5 : sp = "else".data
  · rw [if_pos e5]
    exact ⟨TTy.Else, TLit.Null, by decide, rfl⟩
  rw [if_neg e5]
  by_cases e6 : sp = "for".data
  · rw [if_pos e6]
    exact ⟨TTy.For, TLit.Null, by decide, rfl⟩
  rw [if_neg e6]
  by_cases e7 : sp = "fn".data
  · rw [if_pos e7]
    exact ⟨TTy.Fn, TLit.Null, by decide, rfl⟩
  rw [if_neg e7]
  by_cases e8 : sp = "if".data
  · rw [if_pos e8]
    exact ⟨TTy.If, TLit.Null, by decide, rfl⟩
  rw [if_neg e8]
  by_cases e9 : sp = "null".data
  · rw [if_pos e9]
    exact ⟨TTy.Null, TLit.Null, by decide, rfl⟩
  rw [if_neg e9]
  by_cases e10 : sp = "or".data
  · rw [if_pos e10]
    exact ⟨TTy.Or, TLit.Null, by decide, rfl⟩
  rw [if_neg e10]
  by_cases e11 : sp = "print".data
  · rw [if_pos e11]
    exact ⟨TTy.Print, TLit.Null, by decide, rfl⟩
  rw [if_neg e11]
  by_cases e12 : sp = "ret".data
  · rw [if_pos e12]
    exact ⟨TTy.Return, TLit.Null, by decide, rfl⟩
  rw [if_neg e12]
  by_cases e13 : sp = "super".data
  · rw [if_pos e13]
    exact ⟨TTy.Super, TLit.Null, by decide, rfl⟩
  rw [if_neg e13]
  by_cases e14 : sp = "self".data
  · rw [if_pos e14]
    exact ⟨TTy.This, TLit.Null, by decide, rfl⟩
  rw [if_neg e14]
  by_cases e15 : sp = "var".data
  · rw [if_pos e15]
    exact ⟨TTy.Var, TLit.Null, by decide, rfl⟩
  rw [if_neg e15]
  by_cases e16 : sp = "while".data
  · rw [if_pos e16]
    exact ⟨TTy.While, TLit.Null, by decide, rfl⟩
  rw [if_neg e16]
  exact ⟨TTy.Ident, TLit.Null, by decide, rfl⟩

/-- `expect_ident` on a span that matches no keyword: a plain `Ident` token
with a null literal. -/
theorem Scanner.expect_ident_nonkeyword (s : Scanner)
    (h : (s.buf.drop s.start).take
        (s.current + ((s.buf.drop s.current).takeWhile isAlphanumeric).length - s.start) ∉
        ["True".data, "False".data, "and".data, "class".data, "else".data, "for".data,
         "fn".data, "if".data, "null".data, "or".data, "print".data, "ret".data,
         "super".data, "self".data, "var".data, "while".data]) :
    Scanner.expect_ident s =
      { s with
        current := s.current + ((s.buf.drop s.current).takeWhile isAlphanumeric).length,
        tokens := s.tokens ++
          [{ ty := TTy.Ident,
             lexeme := (s.buf.drop s.start).take
               (s.current + ((s.buf.drop s.current).takeWhile isAlphanumeric).length - s.start),
             literal := TLit.Null, line := s.line }] } := by
  simp only [List.mem_cons, List.not_mem_nil, or_false, not_or] at h
  simp only [Scanner.expect_ident]
  rw [Scanner.identLoop_eq _ s (le_refl _)]
  simp only [Scanner.add_token, Scanner.add_token_lit, Scanner.span_string]
  generalize hg : (s.buf.drop s.start).take
      (s.current + ((s.buf.drop s.current).takeWhile isAlphanumeric).length - s.start) = sp
  rw [hg] at h
  obtain ⟨h1, h2, h3, h4, h5, h6, h7, h8, h9, h10, h11, h12, h13, h14, h15, h16⟩ := h
  rw [if_neg h1, if_neg h2, if_neg h3, if_neg h4, if_neg h5, if_neg h6, if_neg h7, if_neg h8,
    if_neg h9, if_neg h10, if_neg h11, if_neg h12, if_neg h13, if_neg h14, if_neg h15, if_neg h16]

/-! ## Per-branch step lemmas for `scan_token` -/

theorem step_advance_only (s : Scanner) (hlt : s.current < s.buf.length)
    (hch : s.buf.getD s.current (Char.ofNat 0) ≠ '\n') :
    StepOK s (s.advance).2 := by
  have hne : s.reached_eof = false := s.reached_eof_false_iff.mpr hlt
  have hd := drop_cursor_cons s.buf s.current hlt
  refine ⟨rfl, by simp [Scanner.advance, hne], by simp, by simp; omega, ?_, Or.inl rfl, [], by simp⟩
  have h1 : s.current + 1 - s.current = 1 := by omega
  simp only [Scanner.advance_snd_line, Scanner.advance_snd_current, h1, hd,
    List.take_succ_cons, List.take_zero, List.count_cons, List.count_nil]
  simpa using hch

theorem step_newline (s : Scanner) (hlt : s.current < s.buf.length)
    (hch : s.buf.getD s.current (Char.ofNat 0) = '\n') :
    StepOK s { (s.advance).2 with line := (s.advance).2.line + 1 } := by
  have hne : s.reached_eof = false := s.reached_eof_false_iff.mpr hlt
  have hd := drop_cursor_cons s.buf s.current hlt
  refine ⟨rfl, by simp [Scanner.advance, hne], by simp, by simp; omega, ?_, Or.inl rfl, [], by simp⟩
  have h1 : s.current + 1 - s.current = 1 := by omega
  simp only [Scanner.advance_snd_line, Scanner.advance_snd_current, h1, hd,
    List.take_succ_cons, List.take_zero, List.count_cons, List.count_nil]
  have hch' : s.buf[s.current]?.getD (Char.ofNat 0) = '\n' := by simpa using hch
  simp [hch']

theorem step_report (s : Scanner) (hlt : s.current < s.buf.length)
    (hch : s.buf.getD s.current (Char.ofNat 0) ≠ '\n') (msg : String) :
    StepOK s ((s.advance).2.report msg) := by
  have hne : s.reached_eof = false := s.reached_eof_false_iff.mpr hlt
  have hd := drop_cursor_cons s.buf s.current hlt
  refine ⟨rfl, by simp [Scanner.advance, Scanner.report, hne], by simp [Scanner.report],
    by simp [Scanner.report]; omega, ?_, Or.inl (by simp [Scanner.report]),
    [(s.line, msg)], by simp [Scanner.report]⟩
  have h1 : s.current + 1 - s.current = 1 := by omega
  simp only [Scanner.report]
  simp only [Scanner.advance_snd_line, Scanner.advance_snd_current, h1, hd,
    List.take_succ_cons, List.take_zero, List.count_cons, List.count_nil]
  simpa using hch

theorem step_single (s : Scanner) (hs : s.start = s.current) (hlt : s.current < s.buf.length)
    (ty : TTy) (hty : ty ≠ TTy.EOF)
    (hch : s.buf.getD s.current (Char.ofNat 0) ≠ '\n') :
    StepOK s ((s.advance).2.add_token ty) := by
  have hne : s.reached_eof = false := s.reached_eof_false_iff.mpr hlt
  have hd := drop_cursor_cons s.buf s.current hlt
  have h1 : s.current + 1 - s.current = 1 := by omega
  have hcount : ((s.buf.drop s.current).take 1).count '\n' = 0 := by
    rw [hd]
    simp only [List.take_succ_cons, List.take_zero, List.count_cons, List.count_nil]
    simpa using hch
  refine ⟨rfl, by simp [Scanner.advance, Scanner.add_token, Scanner.add_token_lit, hne],
    by simp [Scanner.add_token, Scanner.add_token_lit],
    by simp [Scanner.add_token, Scanner.add_token_lit]; omega, ?_, ?_, [],
    by simp [Scanner.add_token, Scanner.add_token_lit]⟩
  · simp only [Scanner.add_token, Scanner.add_token_lit]
    simp only [Scanner.advance_snd_line, Scanner.advance_snd_current, h1, hcount, Nat.add_zero]
  · refine Or.inr
      ⟨{ ty := ty, lexeme := (s.advance).2.span_string, literal := TLit.Null, line := s.line },
        by simp [Scanner.add_token, Scanner.add_token_lit], hty, ?_, ?_, ?_⟩
    · simp only [Scanner.add_token, Scanner.add_token_lit, Scanner.span_string]
      simp only [Scanner.advance_snd_current, Scanner.advance_snd_start, Scanner.advance_snd_buf,
        hs, h1, hd]
      simp
    · simp [Scanner.add_token, Scanner.add_token_lit]
    · simp [Scanner.add_token, Scanner.add_token_lit]

theorem step_compound (s : Scanner) (hs : s.start = s.current) (hlt : s.current < s.buf.length)
    (yes no : TTy) (hyes : yes ≠ TTy.EOF) (hno : no ≠ TTy.EOF)
    (hch : s.buf.getD s.current (Char.ofNat 0) ≠ '\n') :
    StepOK s (((s.advance).2.expect_many ['='] yes no).2.add_token
      ((s.advance).2.expect_many ['='] yes no).1) := by
  have hne : s.reached_eof = false := s.reached_eof_false_iff.mpr hlt
  rw [Scanner.expect_many_eq]
  simp only [Scanner.advance_snd_buf, Scanner.advance_snd_current, List.length_singleton]
  by_cases h : 1 < s.buf.length - (s.current + 1) ∧ ['='] <+: s.buf.drop (s.current + 1)
  · rw [if_pos h]
    obtain ⟨hlen2, tl, htl⟩ := h
    have hd := drop_cursor_cons s.buf s.current hlt
    have hd2 : s.buf.drop (s.current + 1) = '=' :: tl := htl.symm
    have h2 : s.current + 1 + 1 - s.current = 2 := by omega
    have hcount : ((s.buf.drop s.current).take 2).count '\n' = 0 := by
      rw [hd, List.take_succ_cons, hd2, List.take_succ_cons, List.take_zero]
      simp only [List.count_cons, List.count_nil]
      have hch' : ¬ s.buf[s.current]?.getD (Char.ofNat 0) = '\n' := by simpa using hch
      simp [hch']
    refine ⟨by simp [Scanner.add_token, Scanner.add_token_lit],
      by simp [Scanner.add_token, Scanner.add_token_lit, Scanner.advance_snd_oob, hne],
      by simp [Scanner.add_token, Scanner.add_token_lit]; omega,
      by simp [Scanner.add_token, Scanner.add_token_lit]; omega,
      ?_, ?_, [], by simp [Scanner.add_token, Scanner.add_token_lit]⟩
    · simp only [Scanner.add_token, Scanner.add_token_lit]
      simp only [Scanner.advance_snd_line, h2, hcount, Nat.add_zero]
    · refine Or.inr
        ⟨{ ty := yes,
           lexeme := ({ (s.advance).2 with current := s.current + 1 + 1 } : Scanner).span_string,
           literal := TLit.Null,
           line := ({ (s.advance).2 with current := s.current + 1 + 1 } : Scanner).line },
          by simp [Scanner.add_token, Scanner.add_token_lit], hyes, ?_, ?_, ?_⟩
      · simp only [Scanner.span_string, Scanner.advance_snd_buf, Scanner.advance_snd_start,
          hs, h2, hd, List.take_succ_cons]
        simp
      · simp [Scanner.add_token, Scanner.add_token_lit]
      · simp [Scanner.add_token, Scanner.add_token_lit]
  · rw [if_neg h]
    exact step_single s hs hlt no hno hch

theorem step_comment (s : Scanner) (hlt : s.current < s.buf.length)
    (hch : s.buf.getD s.current (Char.ofNat 0) = '/')
    (tl : List Char) (hd2 : s.buf.drop (s.current + 1) = '/' :: tl) :
    StepOK s (Scanner.commentLoop (s.buf.length - (s.current + 1 + 1))
      { s with current := s.current + 1 + 1 }) := by
  have hd := drop_cursor_cons s.buf s.current hlt
  have hlen1 : s.buf.length - (s.current + 1) = tl.length + 1 := by
    have := congrArg List.length hd2
    simpa [List.length_drop] using this
  have hlen2 : s.current + 1 + 1 ≤ s.buf.length := by omega
  rw [Scanner.commentLoop_eq (s.buf.length - (s.current + 1 + 1))
    { s with current := s.current + 1 + 1 } (by simp)]
  have htw : ((s.buf.drop (s.current + 1 + 1)).takeWhile (fun c => c ≠ '\n')).length ≤
      s.buf.length - (s.current + 1 + 1) := by
    have h := (List.takeWhile_prefix (l := s.buf.drop (s.current + 1 + 1))
      (fun c => decide (c ≠ '\n'))).length_le
    rw [List.length_drop] at h
    exact h
  refine ⟨rfl, rfl,
    by show s.current < s.current + 1 + 1 +
        ((s.buf.drop (s.current + 1 + 1)).takeWhile (fun c => c ≠ '\n')).length
       omega,
    by show s.current + 1 + 1 +
        ((s.buf.drop (s.current + 1 + 1)).takeWhile (fun c => c ≠ '\n')).length ≤ s.buf.length
       omega,
    ?_, Or.inl rfl, [], by simp⟩
  show s.line = s.line + _
  have harith : s.current + 1 + 1 +
      ((s.buf.drop (s.current + 1 + 1)).takeWhile (fun c => c ≠ '\n')).length - s.current =
      2 + ((s.buf.drop (s.current + 1 + 1)).takeWhile (fun c => c ≠ '\n')).length := by omega
  have hdd : List.drop 2 (List.drop s.current s.buf) = List.drop (s.current + 1 + 1) s.buf := by
    rw [List.drop_drop, show s.current + 2 = s.current + 1 + 1 from by omega]
  rw [harith, List.take_add, hdd, take_takeWhile_length]
  rw [hd, List.take_succ_cons, hd2, List.take_succ_cons, List.take_zero]
  simp only [List.count_append, List.count_cons, List.count_nil, count_takeWhile_ne]
  have hch' : ¬ s.buf[s.current]?.getD (Char.ofNat 0) = '\n' := by
    simp only [← List.getD_eq_getElem?_getD]
    rw [hch]
    decide
  simp [hch']

theorem step_string (s : Scanner) (hs : s.start = s.current) (hlt : s.current < s.buf.length)
    (hch : s.buf.getD s.current (Char.ofNat 0) = '"') :
    StepOK s ((s.advance).2.expect_string) := by
  have hne : s.reached_eof = false := s.reached_eof_false_iff.mpr hlt
  have hd := drop_cursor_cons s.buf s.current hlt
  have hrl : (s.buf.drop (s.current + 1)).length = s.buf.length - (s.current + 1) :=
    List.length_drop _ _
  have hble : ((s.buf.drop (s.current + 1)).takeWhile (fun c => c ≠ '"')).length ≤
      (s.buf.drop (s.current + 1)).length :=
    (List.takeWhile_prefix _).length_le
  by_cases hterm : ((s.buf.drop (s.current + 1)).takeWhile (fun c => c ≠ '"')).length =
      (s.buf.drop (s.current + 1)).length
  · have he := Scanner.expect_string_unterminated (s.advance).2 (by simpa using hterm)
    simp only [Scanner.advance_snd_buf, Scanner.advance_snd_current, Scanner.advance_snd_line,
      Scanner.advance_snd_errors, Scanner.advance_snd_start, Scanner.advance_snd_tokens] at he
    rw [he]
    refine ⟨rfl, by simp [Scanner.advance_snd_oob, hne], ?_, ?_, ?_, Or.inl rfl,
      [(s.line + ((s.buf.drop (s.current + 1)).takeWhile (fun c => c ≠ '"')).count '\n',
        "Unterminated string literal.")], rfl⟩
    · show s.current < s.current + 1 +
        ((s.buf.drop (s.current + 1)).takeWhile (fun c => c ≠ '"')).length
      omega
    · show s.current + 1 +
        ((s.buf.drop (s.current + 1)).takeWhile (fun c => c ≠ '"')).length ≤ s.buf.length
      omega
    · show s.line + ((s.buf.drop (s.current + 1)).takeWhile (fun c => c ≠ '"')).count '\n' =
        s.line + _
      have harith : s.current + 1 +
          ((s.buf.drop (s.current + 1)).takeWhile (fun c => c ≠ '"')).length - s.current =
          1 + ((s.buf.drop (s.current + 1)).takeWhile (fun c => c ≠ '"')).length := by omega
      rw [harith, List.take_add, hd, List.take_succ_cons, List.take_zero]
      rw [show List.drop 1 (s.buf.getD s.current (Char.ofNat 0) ::
        List.drop (s.current + 1) s.buf) = List.drop (s.current + 1) s.buf from rfl]
      rw [take_takeWhile_length]
      simp only [List.count_append, List.count_cons, List.count_nil]
      have hch' : ¬ s.buf[s.current]?.getD (Char.ofNat 0) = '\n' := by
        simp only [← List.getD_eq_getElem?_getD]
        rw [hch]
        decide
      simp [hch']
  · have hbl : ((s.buf.drop (s.current + 1)).takeWhile (fun c => c ≠ '"')).length <
        (s.buf.drop (s.current + 1)).length := by omega
    have he := Scanner.expect_string_closed (s.advance).2 (by simpa using hbl)
    simp only [Scanner.advance_snd_buf, Scanner.advance_snd_current, Scanner.advance_snd_line,
      Scanner.advance_snd_errors, Scanner.advance_snd_start, Scanner.advance_snd_tokens] at he
    rw [he]
    have hstop : (s.buf.drop (s.current + 1)).getD
        ((s.buf.drop (s.current + 1)).takeWhile (fun c => c ≠ '"')).length (Char.ofNat 0) = '"' := by
      have := takeWhile_stop (fun c => c ≠ '"') (Char.ofNat 0) (s.buf.drop (s.current + 1)) hbl
      simpa using this
    refine ⟨rfl, by simp [Scanner.advance_snd_oob, hne], ?_, ?_, ?_, ?_, [], by simp⟩
    · show s.current < s.current + 1 +
        ((s.buf.drop (s.current + 1)).takeWhile (fun c => c ≠ '"')).length + 1
      omega
    · show s.current + 1 +
        ((s.buf.drop (s.current + 1)).takeWhile (fun c => c ≠ '"')).length + 1 ≤ s.buf.length
      omega
    · show s.line + ((s.buf.drop (s.current + 1)).takeWhile (fun c => c ≠ '"')).count '\n' =
        s.line + _
      have harith : s.current + 1 +
          ((s.buf.drop (s.current + 1)).takeWhile (fun c => c ≠ '"')).length + 1 - s.current =
          1 + (((s.buf.drop (s.current + 1)).takeWhile (fun c => c ≠ '"')).length + 1) := by omega
      rw [harith, List.take_add, hd, List.take_succ_cons, List.take_zero]
      rw [show List.drop 1 (s.buf.getD s.current (Char.ofNat 0) ::
        List.drop (s.current + 1) s.buf) = List.drop (s.current + 1) s.buf from rfl]
      rw [List.take_succ, take_takeWhile_length]
      have hidx : (s.buf.drop (s.current + 1))[((s.buf.drop (s.current + 1)).takeWhile
          (fun c => c ≠ '"')).length]? = some '"' := by
        rw [List.getElem?_eq_getElem hbl]
        rw [← List.getD_eq_getElem _ (Char.ofNat 0) hbl]
        rw [hstop]
      rw [hidx]
      simp only [Option.toList_some, List.count_append, List.count_cons, List.count_nil]
      have hch' : ¬ s.buf[s.current]?.getD (Char.ofNat 0) = '\n' := by
        simp only [← List.getD_eq_getElem?_getD]
        rw [hch]
        decide
      simp [hch']
    · refine Or.inr ⟨_, rfl, ?_, ?_, ?_, ?_⟩
      · exact fun h => TTy.noConfusion h
      · show (s.buf.drop s.start).take (s.current + 1 +
          ((s.buf.drop (s.current + 1)).takeWhile (fun c => c ≠ '"')).length + 1 - s.start) ≠ []
        rw [hs]
        have harith2 : s.current + 1 +
            ((s.buf.drop (s.current + 1)).takeWhile (fun c => c ≠ '"')).length + 1 - s.current =
            ((s.buf.drop (s.current + 1)).takeWhile (fun c => c ≠ '"')).length + 1 + 1 := by omega
        rw [harith2, hd, List.take_succ_cons]
        simp
      · show s.line ≤ s.line + ((s.buf.drop (s.current + 1)).takeWhile (fun c => c ≠ '"')).count '\n'
        omega
      · show s.line + ((s.buf.drop (s.current + 1)).takeWhile (fun c => c ≠ '"')).count '\n' ≤
          s.line + ((s.buf.drop (s.current + 1)).takeWhile (fun c => c ≠ '"')).count '\n'
        omega

theorem step_number (s : Scanner) (hs : s.start = s.current) (hlt : s.current < s.buf.length)
    (hch : (s.buf.getD s.current (Char.ofNat 0)).isDigit = true) :
    StepOK s ((s.advance).2.expect_number) := by
  have hne : s.reached_eof = false := s.reached_eof_false_iff.mpr hlt
  have hd := drop_cursor_cons s.buf s.current hlt
  have hrl : (s.buf.drop (s.current + 1)).length = s.buf.length - (s.current + 1) :=
    List.length_drop _ _
  have hd1le : ((s.buf.drop (s.current + 1)).takeWhile Char.isDigit).length ≤ (s.buf.drop (s.current + 1)).length :=
    (List.takeWhile_prefix _).length_le
  have hch0 : s.buf.getD s.current (Char.ofNat 0) ≠ '\n' := by
    intro hcon
    rw [hcon] at hch
    exact absurd hch (by decide)
  have hch' : ¬ s.buf[s.current]?.getD (Char.ofNat 0) = '\n' := by
    simp only [← List.getD_eq_getElem?_getD]
    exact hch0
  rw [Scanner.expect_number_eq]
  simp only [Scanner.advance_snd_buf, Scanner.advance_snd_current, Scanner.advance_snd_line,
    Scanner.advance_snd_errors, Scanner.advance_snd_start, Scanner.advance_snd_tokens]
  by_cases hdot : s.buf.getD (s.current + 1 + ((s.buf.drop (s.current + 1)).takeWhile Char.isDigit).length) (Char.ofNat 0) = '.' ∧
      (s.buf.getD (s.current + 1 + ((s.buf.drop (s.current + 1)).takeWhile Char.isDigit).length + 1) (Char.ofNat 0)).isDigit = true
  · rw [if_pos hdot]
    have hc1lt : s.current + 1 + ((s.buf.drop (s.current + 1)).takeWhile Char.isDigit).length < s.buf.length :=
      getD_ne_imp_lt _ _ _ (by rw [hdot.1]; decide)
    have hd2le : ((s.buf.drop (s.current + 1 + ((s.buf.drop (s.current + 1)).takeWhile Char.isDigit).length + 1)).takeWhile Char.isDigit).length ≤ (s.buf.drop (s.current + 1 + ((s.buf.drop (s.current + 1)).takeWhile Char.isDigit).length + 1)).length :=
      (List.takeWhile_prefix _).length_le
    have hrl2 : (s.buf.drop (s.current + 1 + ((s.buf.drop (s.current + 1)).takeWhile Char.isDigit).length + 1)).length = s.buf.length - (s.current + 1 + ((s.buf.drop (s.current + 1)).takeWhile Char.isDigit).length + 1) :=
      List.length_drop _ _
    have hdc1 := drop_cursor_cons s.buf (s.current + 1 + ((s.buf.drop (s.current + 1)).takeWhile Char.isDigit).length) hc1lt
    rw [hdot.1] at hdc1
    refine ⟨rfl, by simp [Scanner.advance_snd_oob, hne], ?_, ?_, ?_, ?_, [], by simp⟩
    · show s.current < s.current + 1 + ((s.buf.drop (s.current + 1)).takeWhile Char.isDigit).length + 1 + ((s.buf.drop (s.current + 1 + ((s.buf.drop (s.current + 1)).takeWhile Char.isDigit).length + 1)).takeWhile Char.isDigit).length
      omega
    · show s.current + 1 + ((s.buf.drop (s.current + 1)).takeWhile Char.isDigit).length + 1 + ((s.buf.drop (s.current + 1 + ((s.buf.drop (s.current + 1)).takeWhile Char.isDigit).length + 1)).takeWhile Char.isDigit).length ≤ s.buf.length
      omega
    · show s.line = s.line + _
      have harith : s.current + 1 + ((s.buf.drop (s.current + 1)).takeWhile Char.isDigit).length + 1 + ((s.buf.drop (s.current + 1 + ((s.buf.drop (s.current + 1)).takeWhile Char.isDigit).length + 1)).takeWhile Char.isDigit).length - s.current = 1 + (((s.buf.drop (s.current + 1)).takeWhile Char.isDigit).length + (((s.buf.drop (s.current + 1 + ((s.buf.drop (s.current + 1)).takeWhile Char.isDigit).length + 1)).takeWhile Char.isDigit).length + 1)) := by omega
      rw [harith, List.take_add, hd]
      rw [show List.take 1 ((s.buf.getD s.current (Char.ofNat 0)) :: s.buf.drop (s.current + 1)) = [s.buf.getD s.current (Char.ofNat 0)] from rfl]
      rw [show List.drop 1 ((s.buf.getD s.current (Char.ofNat 0)) :: s.buf.drop (s.current + 1)) =
        s.buf.drop (s.current + 1) from rfl]
      rw [List.take_add, take_takeWhile_length, List.drop_drop, hdc1, List.take_succ_cons,
        take_takeWhile_length]
      simp only [List.count_append, List.count_cons, List.count_nil, count_nl_takeWhile_digit]
      simp [hch']
    · refine Or.inr ⟨_, rfl, ?_, ?_, ?_, ?_⟩
      · exact fun h => TTy.noConfusion h
      · show (s.buf.drop s.start).take (s.current + 1 + ((s.buf.drop (s.current + 1)).takeWhile Char.isDigit).length + 1 + ((s.buf.drop (s.current + 1 + ((s.buf.drop (s.current + 1)).takeWhile Char.isDigit).length + 1)).takeWhile Char.isDigit).length - s.start) ≠ []
        rw [hs]
        have harith2 : s.current + 1 + ((s.buf.drop (s.current + 1)).takeWhile Char.isDigit).length + 1 + ((s.buf.drop (s.current + 1 + ((s.buf.drop (s.current + 1)).takeWhile Char.isDigit).length + 1)).takeWhile Char.isDigit).length - s.current = (((s.buf.drop (s.current + 1)).takeWhile Char.isDigit).length + ((s.buf.drop (s.current + 1 + ((s.buf.drop (s.current + 1)).takeWhile Char.isDigit).length + 1)).takeWhile Char.isDigit).length + 1) + 1 := by omega
        rw [harith2, hd, List.take_succ_cons]
        simp
      · show s.line ≤ s.line
        omega
      · show s.line ≤ s.line
        omega
  · rw [if_neg hdot]
    refine ⟨rfl, by simp [Scanner.advance_snd_oob, hne], ?_, ?_, ?_, ?_, [], by simp⟩
    · show s.current < s.current + 1 + ((s.buf.drop (s.current + 1)).takeWhile Char.isDigit).length
      omega
    · show s.current + 1 + ((s.buf.drop (s.current + 1)).takeWhile Char.isDigit).length ≤ s.buf.length
      omega
    · show s.line = s.line + _
      have harith : s.current + 1 + ((s.buf.drop (s.current + 1)).takeWhile Char.isDigit).length - s.current = 1 + ((s.buf.drop (s.current + 1)).takeWhile Char.isDigit).length := by omega
      rw [harith, List.take_add, hd]
      rw [show List.take 1 ((s.buf.getD s.current (Char.ofNat 0)) :: s.buf.drop (s.current + 1)) = [s.buf.getD s.current (Char.ofNat 0)] from rfl]
      rw [show List.drop 1 ((s.buf.getD s.current (Char.ofNat 0)) :: s.buf.drop (s.current + 1)) =
        s.buf.drop (s.current + 1) from rfl]
      rw [take_takeWhile_length]
      simp only [List.count_append, List.count_cons, List.count_nil, count_nl_takeWhile_digit]
      simp [hch']
    · refine Or.inr ⟨_, rfl, ?_, ?_, ?_, ?_⟩
      · exact fun h => TTy.noConfusion h
      · show (s.buf.drop s.start).take (s.current + 1 + ((s.buf.drop (s.current + 1)).takeWhile Char.isDigit).length - s.start) ≠ []
        rw [hs]
        have harith2 : s.current + 1 + ((s.buf.drop (s.current + 1)).takeWhile Char.isDigit).length - s.current = ((s.buf.drop (s.current + 1)).takeWhile Char.isDigit).length + 1 := by omega
        rw [harith2, hd, List.take_succ_cons]
        simp
      · show s.line ≤ s.line
        omega
      · show s.line ≤ s.line
        omega

theorem step_ident (s : Scanner) (hs : s.start = s.current) (hlt : s.current < s.buf.length)
    (hch : isAlphabetic (s.buf.getD s.current (Char.ofNat 0)) = true) :
    StepOK s ((s.advance).2.expect_ident) := by
  have hne : s.reached_eof = false := s.reached_eof_false_iff.mpr hlt
  have hd := drop_cursor_cons s.buf s.current hlt
  have hrl : (s.buf.drop (s.current + 1)).length = s.buf.length - (s.current + 1) :=
    List.length_drop _ _
  have hawle : ((s.buf.drop (s.current + 1)).takeWhile isAlphanumeric).length ≤ (s.buf.drop (s.current + 1)).length :=
    (List.takeWhile_prefix _).length_le
  have hch0 : s.buf.getD s.current (Char.ofNat 0) ≠ '\n' := by
    intro hcon
    rw [hcon] at hch
    exact absurd hch (by decide)
  have hch' : ¬ s.buf[s.current]?.getD (Char.ofNat 0) = '\n' := by
    simp only [← List.getD_eq_getElem?_getD]
    exact hch0
  obtain ⟨ty, lit, hty, heq⟩ := Scanner.expect_ident_parts (s.advance).2
  rw [heq]
  simp only [Scanner.advance_snd_buf, Scanner.advance_snd_current, Scanner.advance_snd_line,
    Scanner.advance_snd_errors, Scanner.advance_snd_start, Scanner.advance_snd_tokens]
  refine ⟨rfl, by simp [Scanner.advance_snd_oob, hne], ?_, ?_, ?_, ?_, [], by simp⟩
  · show s.current < s.current + 1 + ((s.buf.drop (s.current + 1)).takeWhile isAlphanumeric).length
    omega
  · show s.current + 1 + ((s.buf.drop (s.current + 1)).takeWhile isAlphanumeric).length ≤ s.buf.length
    omega
  · show s.line = s.line + _
    have harith : s.current + 1 + ((s.buf.drop (s.current + 1)).takeWhile isAlphanumeric).length - s.current = 1 + ((s.buf.drop (s.current + 1)).takeWhile isAlphanumeric).length := by omega
    rw [harith, List.take_add, hd]
    rw [show List.take 1 ((s.buf.getD s.current (Char.ofNat 0)) :: s.buf.drop (s.current + 1)) = [s.buf.getD s.current (Char.ofNat 0)] from rfl]
    rw [show List.drop 1 ((s.buf.getD s.current (Char.ofNat 0)) :: s.buf.drop (s.current + 1)) =
      s.buf.drop (s.current + 1) from rfl]
    rw [take_takeWhile_length]
    simp only [List.count_append, List.count_cons, List.count_nil, count_nl_takeWhile_alnum]
    simp [hch']
  · refine Or.inr ⟨_, rfl, hty, ?_, ?_, ?_⟩
    · show (s.buf.drop s.start).take (s.current + 1 + ((s.buf.drop (s.current + 1)).takeWhile isAlphanumeric).length - s.start) ≠ []
      rw [hs]
      have harith2 : s.current + 1 + ((s.buf.drop (s.current + 1)).takeWhile isAlphanumeric).length - s.current = ((s.buf.drop (s.current + 1)).takeWhile isAlphanumeric).length + 1 := by omega
      rw [harith2, hd, List.take_succ_cons]
      simp
    · show s.line ≤ s.line
      omega
    · show s.line ≤ s.line
      omega

theorem scan_token_step (s : Scanner) (hs : s.start = s.current)
    (hlt : s.current < s.buf.length) :
    StepOK s s.scan_token := by
  have hne : s.reached_eof = false := s.reached_eof_false_iff.mpr hlt
  simp only [Scanner.scan_token, Scanner.advance_fst]
  by_cases h1 : s.buf.getD s.current (Char.ofNat 0) = '('
  · rw [if_pos h1]
    exact step_single s hs hlt TTy.LParen (by decide) (by rw [h1]; decide)
  rw [if_neg h1]
  by_cases h2 : s.buf.getD s.current (Char.ofNat 0) = ')'
  · rw [if_pos h2]
    exact step_single s hs hlt TTy.RParen (by decide) (by rw [h2]; decide)
  rw [if_neg h2]
  by_cases h3 : s.buf.getD s.current (Char.ofNat 0) = '{'
  · rw [if_pos h3]
    exact step_single s hs hlt TTy.LBrace (by decide) (by rw [h3]; decide)
  rw [if_neg h3]
  by_cases h4 : s.buf.getD s.current (Char.ofNat 0) = '}'
  · rw [if_pos h4]
    exact step_single s hs hlt TTy.RBrace (by decide) (by rw [h4]; decide)
  rw [if_neg h4]
  by_cases h5 : s.buf.getD s.current (Char.ofNat 0) = ','
  · rw [if_pos h5]
    exact step_single s hs hlt TTy.Comma (by decide) (by rw [h5]; decide)
  rw [if_neg h5]
  by_cases h6 : s.buf.getD s.current (Char.ofNat 0) = '.'
  · rw [if_pos h6]
    exact step_single s hs hlt TTy.Period (by decide) (by rw [h6]; decide)
  rw [if_neg h6]
  by_cases h7 : s.buf.getD s.current (Char.ofNat 0) = '-'
  · rw [if_pos h7]
    exact step_single s hs hlt TTy.Minus (by decide) (by rw [h7]; decide)
  rw [if_neg h7]
  by_cases h8 : s.buf.getD s.current (Char.ofNat 0) = '+'
  · rw [if_pos h8]
    exact step_single s hs hlt TTy.Plus (by decide) (by rw [h8]; decide)
  rw [if_neg h8]
  by_cases h9 : s.buf.getD s.current (Char.ofNat 0) = ';'
  · rw [if_pos h9]
    exact step_single s hs hlt TTy.Semicolon (by decide) (by rw [h9]; decide)
  rw [if_neg h9]
  by_cases h10 : s.buf.getD s.current (Char.ofNat 0) = '*'
  · rw [if_pos h10]
    exact step_single s hs hlt TTy.Asterisk (by decide) (by rw [h10]; decide)
  rw [if_neg h10]
  by_cases h11 : s.buf.getD s.current (Char.ofNat 0) = '!'
  · rw [if_pos h11]
    exact step_compound s hs hlt TTy.BangEq TTy.Bang (by decide) (by decide) (by rw [h11]; decide)
  rw [if_neg h11]
  by_cases h12 : s.buf.getD s.current (Char.ofNat 0) = '='
  · rw [if_pos h12]
    exact step_compound s hs hlt TTy.EqEq TTy.Eq (by decide) (by decide) (by rw [h12]; decide)
  rw [if_neg h12]
  by_cases h13 : s.buf.getD s.current (Char.ofNat 0) = '<'
  · rw [if_pos h13]
    exact step_compound s hs hlt TTy.LtEq TTy.Lt (by decide) (by decide) (by rw [h13]; decide)
  rw [if_neg h13]
  by_cases h14 : s.buf.getD s.current (Char.ofNat 0) = '>'
  · rw [if_pos h14]
    exact step_compound s hs hlt TTy.GtEq TTy.Gt (by decide) (by decide) (by rw [h14]; decide)
  rw [if_neg h14]
  by_cases h15 : s.buf.getD s.current (Char.ofNat 0) = '/'
  · rw [if_pos h15]
    rw [Scanner.expect_many_eq]
    simp only [Scanner.advance_snd_buf, Scanner.advance_snd_current, List.length_singleton]
    by_cases hcm : 1 < s.buf.length - (s.current + 1) ∧ ['/'] <+: s.buf.drop (s.current + 1)
    · rw [if_pos hcm]
      rw [if_pos rfl]
      simp only [Scanner.advance_snd_oob, hne, Bool.or_false]
      obtain ⟨hlen2, tl, htl⟩ := hcm
      exact step_comment s hlt h15 tl htl.symm
    · rw [if_neg hcm]
      rw [if_neg (fun h => TTy.noConfusion h)]
      exact step_single s hs hlt TTy.FSlash (by decide) (by rw [h15]; decide)
  rw [if_neg h15]
  by_cases h16 : s.buf.getD s.current (Char.ofNat 0) = '\"'
  · rw [if_pos h16]
    exact step_string s hs hlt h16
  rw [if_neg h16]
  by_cases h17 : s.buf.getD s.current (Char.ofNat 0) = ' ' ∨ s.buf.getD s.current (Char.ofNat 0) = '\r' ∨ s.buf.getD s.current (Char.ofNat 0) = '\t'
  · rw [if_pos h17]
    exact step_advance_only s hlt (by rcases h17 with h|h|h <;> rw [h] <;> decide)
  rw [if_neg h17]
  by_cases h18 : s.buf.getD s.current (Char.ofNat 0) = '\n'
  · rw [if_pos h18]
    exact step_newline s hlt h18
  rw [if_neg h18]
  by_cases h19 : (s.buf.getD s.current (Char.ofNat 0)).isDigit = true
  · rw [if_pos h19]
    exact step_number s hs hlt h19
  rw [if_neg h19]
  by_cases h20 : isAlphabetic (s.buf.getD s.current (Char.ofNat 0)) = true
  · rw [if_pos h20]
    exact step_ident s hs hlt h20
  rw [if_neg h20]
  exact step_report s hlt h18 "Unexpected char."

/-- The main-loop invariant: a full drain of the scanner reaches the end of
the buffer, never raises the oob flag, adds one to the line counter per
remaining newline, appends only non-end-marker tokens with nonempty lexemes
and non-decreasing line stamps, and only appends to the error sink. -/
theorem scanLoop_spec : ∀ (fuel : Nat) (s : Scanner),
    s.buf.length - s.current ≤ fuel →
    s.current ≤ s.buf.length →
    (Scanner.scanLoop fuel s).buf = s.buf ∧
    (Scanner.scanLoop fuel s).oob = s.oob ∧
    (Scanner.scanLoop fuel s).current = s.buf.length ∧
    (Scanner.scanLoop fuel s).line = s.line + (s.buf.drop s.current).count '\n' ∧
    (∃ ts, (Scanner.scanLoop fuel s).tokens = s.tokens ++ ts ∧
      (∀ t ∈ ts, t.ty ≠ TTy.EOF ∧ t.lexeme ≠ [] ∧ s.line ≤ t.line ∧
        t.line ≤ (Scanner.scanLoop fuel s).line) ∧
      List.Pairwise (fun a b => a.line ≤ b.line) ts) ∧
    (∃ es, (Scanner.scanLoop fuel s).errors = s.errors ++ es)
  | 0, s, hf, hc => by
    have hle : s.buf.length ≤ s.current := by omega
    have hdn : s.buf.drop s.current = [] := List.drop_eq_nil_of_le hle
    rw [Scanner.scanLoop]
    exact ⟨rfl, rfl, by omega, by simp [hdn], ⟨[], by simp, by simp, List.Pairwise.nil⟩,
      [], by simp⟩
  | fuel + 1, s, hf, hc => by
    rw [Scanner.scanLoop]
    by_cases heof : s.reached_eof = false
    · rw [if_pos heof]
      have hlt : s.current < s.buf.length := s.reached_eof_false_iff.mp heof
      have hstep := scan_token_step { s with start := s.current } rfl hlt
      set t := ({ s with start := s.current } : Scanner).scan_token with ht
      simp only [StepOK] at hstep
      obtain ⟨sbuf, soob, scur, scle, sline, stoks, es0, serr⟩ := hstep
      have hrec := scanLoop_spec fuel t (by rw [sbuf]; omega) (by rw [sbuf]; exact scle)
      obtain ⟨rbuf, roob, rcur, rline, ⟨ts', rts, rall, rpair⟩, es', rerr⟩ := hrec
      have hsplit : s.buf.drop s.current =
          (s.buf.drop s.current).take (t.current - s.current) ++ s.buf.drop t.current := by
        have h1 : List.drop (t.current - s.current) (List.drop s.current s.buf) =
            List.drop t.current s.buf := by
          rw [List.drop_drop, show s.current + (t.current - s.current) = t.current from by omega]
        rw [← h1, List.take_append_drop]
      have hcadd : (s.buf.drop s.current).count '\n' =
          ((s.buf.drop s.current).take (t.current - s.current)).count '\n' +
          (s.buf.drop t.current).count '\n' := by
        conv_lhs => rw [hsplit]
        rw [List.count_append]
      have hrline : (Scanner.scanLoop fuel t).line =
          s.line + (s.buf.drop s.current).count '\n' := by
        rw [rline, sline, hcadd]
        have : t.buf = s.buf := sbuf
        rw [this]
        omega
      refine ⟨by rw [rbuf, sbuf], by rw [roob, soob], by rw [rcur, sbuf], hrline, ?_, ?_⟩
      · rcases stoks with hkeep | ⟨tok, htok, htokty, htoklex, htokl, htokr⟩
        · refine ⟨ts', by rw [rts, hkeep], ?_, rpair⟩
          intro x hx
          obtain ⟨hty, hlex, hlb, hub⟩ := rall x hx
          exact ⟨hty, hlex, le_trans (by rw [sline]; omega) hlb, hub⟩
        · refine ⟨tok :: ts', by rw [rts, htok]; simp, ?_, ?_⟩
          · intro x hx
            rcases List.mem_cons.mp hx with hx | hx
            · subst hx
              refine ⟨htokty, htoklex, htokl, ?_⟩
              calc x.line ≤ t.line := htokr
                _ ≤ (Scanner.scanLoop fuel t).line := by rw [rline]; omega
            · obtain ⟨hty, hlex, hlb, hub⟩ := rall x hx
              exact ⟨hty, hlex, le_trans htokl (le_trans htokr hlb), hub⟩
          · refine List.Pairwise.cons ?_ rpair
            intro x hx
            obtain ⟨_, _, hlb, _⟩ := rall x hx
            exact le_trans htokr hlb
      · exact ⟨es0 ++ es', by rw [rerr, serr, List.append_assoc]⟩
    · rw [if_neg heof]
      have hle : s.buf.length ≤ s.current :=
        s.reached_eof_true_iff.mp (by revert heof; cases s.reached_eof <;> simp)
      have hdn : s.buf.drop s.current = [] := List.drop_eq_nil_of_le hle
      exact ⟨rfl, rfl, by omega, by simp [hdn], ⟨[], by simp, by simp, List.Pairwise.nil⟩,
        [], by simp⟩

/-- Every position inside a `takeWhile` run satisfies the predicate. -/
theorem takeWhile_index (p : Char → Bool) (d : Char) : ∀ (l : List Char) (k : Nat),
    k < (l.takeWhile p).length → p (l.getD k d) = true
  | [], k, h => by simp at h
  | a :: t, k, h => by
    by_cases hp : p a = true
    · rw [List.takeWhile_cons, if_pos hp] at h
      match k with
      | 0 => simpa using hp
      | k + 1 =>
        have := takeWhile_index p d t k (by simpa using h)
        simpa using this
    · rw [List.takeWhile_cons, if_neg hp] at h
      simp at h

/-- `getD` through `drop`. -/
theorem getD_drop (l : List Char) (n k : Nat) (d : Char) :
    (l.drop n).getD k d = l.getD (n + k) d := by
  rw [List.getD_eq_getElem?_getD, List.getD_eq_getElem?_getD, List.getElem?_drop]

/-! ## The claims -/

/-- C1: the lookahead-match helper (`expect_many`) signals a match exactly
when strictly more than `expected.length` characters remain in the buffer
after the cursor and the next characters equal the expected sequence; on a
match it advances the cursor by exactly that length and otherwise leaves the
whole state untouched. -/
theorem claim_c1_lookahead_match (s : Scanner) (expected : List Char) (yes no : TTy) :
    s.expect_many expected yes no =
      if expected.length < s.buf.length - s.current ∧ expected <+: s.buf.drop s.current
      then (yes, { s with current := s.current + expected.length })
      else (no, s) :=
  Scanner.expect_many_eq s expected yes no

/-- C2: for every input, the token sequence of `scan_tokens` is non-empty,
ends in the single end-marker token (empty lexeme, null literal, final line
number), and the end-marker is the only token with an empty lexeme. -/
theorem claim_c2_eof_marker (src : String) :
    scanTokens src ≠ [] ∧
    (scanTokens src).getLast? =
      some { ty := TTy.EOF, lexeme := [], literal := TLit.Null, line := (scanState src).line } ∧
    ((scanTokens src).filter (fun t => t.ty == TTy.EOF)).length = 1 ∧
    (∀ t ∈ scanTokens src, (t.lexeme = [] ↔ t.ty = TTy.EOF)) := by
  obtain ⟨hbuf, hoob, hcur, hline, ⟨ts, hts, hall, hpair⟩, es, herr⟩ :=
    scanLoop_spec ((Scanner.new src).buf.length - (Scanner.new src).current)
      (Scanner.new src) (le_refl _) (by simp [Scanner.new])
  have hexp : scanTokens src = ts ++
      [{ ty := TTy.EOF, lexeme := [], literal := TLit.Null, line := (scanState src).line }] := by
    simp only [scanTokens, Scanner.scan_tokens, Scanner.runScan, scanState]
    rw [hts]
    simp [Scanner.new]
  refine ⟨by rw [hexp]; simp, by rw [hexp]; exact List.getLast?_concat _, ?_, ?_⟩
  · rw [hexp, List.filter_append]
    have h1 : ts.filter (fun t => t.ty == TTy.EOF) = [] := by
      refine List.filter_eq_nil_iff.mpr ?_
      intro t htm
      simpa using (hall t (by simpa [Scanner.new] using htm)).1
    rw [h1]
    simp
  · intro t htm
    rw [hexp] at htm
    rcases List.mem_append.mp htm with htm | htm
    · obtain ⟨hty, hlex, _, _⟩ := hall t (by simpa [Scanner.new] using htm)
      exact ⟨fun hc => absurd hc hlex, fun hc => absurd hc hty⟩
    · rcases List.mem_singleton.mp htm with rfl
      exact ⟨fun _ => rfl, fun _ => rfl⟩

/-- C6: token line numbers are non-decreasing along the output, and the line
counter (starting at 1) is incremented exactly once per newline character in
the input, whether consumed by the whitespace dispatch or inside a multi-line
string literal: the final line counter is one plus the newline count. -/
theorem claim_c6_lines (src : String) :
    List.Chain' (fun a b => a.line ≤ b.line) (scanTokens src) ∧
    (scanState src).line = 1 + src.data.count '\n' := by
  obtain ⟨hbuf, hoob, hcur, hline, ⟨ts, hts, hall, hpair⟩, es, herr⟩ :=
    scanLoop_spec ((Scanner.new src).buf.length - (Scanner.new src).current)
      (Scanner.new src) (le_refl _) (by simp [Scanner.new])
  have hfin : (scanState src).line = 1 + src.data.count '\n' := by
    simp only [scanState, Scanner.runScan]
    rw [hline]
    simp [Scanner.new]
  have hexp : scanTokens src = ts ++
      [{ ty := TTy.EOF, lexeme := [], literal := TLit.Null, line := (scanState src).line }] := by
    simp only [scanTokens, Scanner.scan_tokens, Scanner.runScan, scanState]
    rw [hts]
    simp [Scanner.new]
  refine ⟨?_, hfin⟩
  rw [hexp]
  refine List.Pairwise.chain' ?_
  rw [List.pairwise_append]
  refine ⟨hpair, List.pairwise_singleton _ _, ?_⟩
  intro a ha b hb
  rcases List.mem_singleton.mp hb with rfl
  show a.line ≤ (scanState src).line
  have := (hall a (by simpa [Scanner.new] using ha)).2.2.2
  simpa [scanState, Scanner.runScan] using this

/-- C9: scanning is deterministic; two independent scanner constructions over
the same source text yield identical token sequences. -/
theorem claim_c9_deterministic (src1 src2 : String) (h : src1 = src2) :
    Scanner.scan_tokens (Scanner.new src1) = Scanner.scan_tokens (Scanner.new src2) := by
  rw [h]

theorem claim_c9_witness :
    ("var x = 1;" : String) = "var x = 1;" ∧
    Scanner.scan_tokens (Scanner.new "var x = 1;") =
      Scanner.scan_tokens (Scanner.new "var x = 1;") :=
  ⟨rfl, claim_c9_deterministic "var x = 1;" "var x = 1;" rfl⟩

/-- C10: a full scan never raises the out-of-bounds flag (so the Rust
indexing never panics), the main loop drives the cursor exactly to the end of
the buffer (termination), and each `scan_token` call from a loop state
strictly increases the cursor. -/
theorem claim_c10_safety (src : String) :
    (scanState src).oob = false ∧
    (scanState src).current = src.data.length ∧
    (∀ s : Scanner, s.start = s.current → s.current < s.buf.length →
      s.current < s.scan_token.current) := by
  obtain ⟨hbuf, hoob, hcur, hline, htoks, es, herr⟩ :=
    scanLoop_spec ((Scanner.new src).buf.length - (Scanner.new src).current)
      (Scanner.new src) (le_refl _) (by simp [Scanner.new])
  refine ⟨?_, ?_, ?_⟩
  · simpa [scanState, Scanner.runScan, Scanner.new] using hoob
  · simpa [scanState, Scanner.runScan, Scanner.new] using hcur
  · intro s hs hlt
    exact (scan_token_step s hs hlt).2.2.1

/-- C3: when a string literal's opening quote is never matched by a closing
quote before end of input, string scanning reports "Unterminated string
literal." at the current line (after any embedded newlines) and emits no
token; in particular a lone opening quote before "abc" yields zero tokens
before the end-marker and exactly one error at line 1. -/
theorem claim_c3_unterminated_string (s : Scanner) (h : '"' ∉ s.buf.drop s.current) :
    (s.expect_string).tokens = s.tokens ∧
    (s.expect_string).errors = s.errors ++
      [(s.line + (s.buf.drop s.current).count '\n', "Unterminated string literal.")] ∧
    scanTokens "\"abc" = [{ ty := TTy.EOF, lexeme := [], literal := TLit.Null, line := 1 }] ∧
    (scanState "\"abc").errors = [(1, "Unterminated string literal.")] := by
  have htw : (s.buf.drop s.current).takeWhile (fun c => c ≠ '"') = s.buf.drop s.current := by
    refine List.takeWhile_eq_self_iff.mpr ?_
    intro c hc
    simp only [decide_eq_true_eq]
    exact fun hq => h (hq ▸ hc)
  have he := Scanner.expect_string_unterminated s (by rw [htw])
  rw [he]
  refine ⟨rfl, ?_, by decide, by decide⟩
  show s.errors ++ [(s.line +
    ((s.buf.drop s.current).takeWhile (fun c => c ≠ '"')).count '\n',
    "Unterminated string literal.")] = _
  rw [htw]

theorem claim_c3_witness :
    '"' ∉ (Scanner.mk "\"abc".data 0 1 1 [] [] false).buf.drop 1 ∧
    (Scanner.expect_string (Scanner.mk "\"abc".data 0 1 1 [] [] false)).tokens = [] :=
  ⟨by decide,
    (claim_c3_unterminated_string (Scanner.mk "\"abc".data 0 1 1 [] [] false) (by decide)).1⟩

/-- C4: number scanning consumes a maximal run of decimal digits, then a dot
and further digits only when a digit immediately follows the dot (otherwise
the dot is left unconsumed); the emitted `Number` token's lexeme is exactly
the consumed span and its literal is that span's numeric value (the `f64`
parse, modelled as the exact decimal rational).  In particular "1." yields a
`Number` token with lexeme "1" and value 1 followed by a `Period` token. -/
theorem claim_c4_number_scanning (s : Scanner) :
    (Scanner.expect_number s =
      (let d1 := ((s.buf.drop s.current).takeWhile Char.isDigit).length
       let c1 := s.current + d1
       let c2 := if s.buf.getD c1 (Char.ofNat 0) = '.' ∧
                    (s.buf.getD (c1 + 1) (Char.ofNat 0)).isDigit = true
                 then c1 + 1 + ((s.buf.drop (c1 + 1)).takeWhile Char.isDigit).length
                 else c1
       let sp := (s.buf.drop s.start).take (c2 - s.start)
       { s with
         current := c2,
         tokens := s.tokens ++
           [{ ty := TTy.Number, lexeme := sp,
              literal := TLit.Number (parseNum sp), line := s.line }] })) ∧
    scanTokens "1." =
      [{ ty := TTy.Number, lexeme := ['1'], literal := TLit.Number 1, line := 1 },
       { ty := TTy.Period, lexeme := ['.'], literal := TLit.Null, line := 1 },
       { ty := TTy.EOF, lexeme := [], literal := TLit.Null, line := 1 }] :=
  ⟨Scanner.expect_number_eq s, by decide⟩

/-- C5: identifier/keyword resolution is an exact, case-sensitive match of
the completed identifier span (the maximal Unicode-alphanumeric run) against
the fixed keyword table: any span outside the table yields a generic `Ident`
token with a null literal (so "ifx", "If", "true" and "false" scan as
identifiers), while exact matches yield keyword tokens, with "True"/"False"
carrying boolean literals; a non-ASCII letter is part of an identifier, so
"aé" scans as a single identifier. -/
theorem claim_c5_keyword_resolution (s : Scanner)
    (h : (s.buf.drop s.start).take
        (s.current + ((s.buf.drop s.current).takeWhile isAlphanumeric).length - s.start) ∉
        ["True".data, "False".data, "and".data, "class".data, "else".data, "for".data,
         "fn".data, "if".data, "null".data, "or".data, "print".data, "ret".data,
         "super".data, "self".data, "var".data, "while".data]) :
    (Scanner.expect_ident s =
      { s with
        current := s.current + ((s.buf.drop s.current).takeWhile isAlphanumeric).length,
        tokens := s.tokens ++
          [{ ty := TTy.Ident,
             lexeme := (s.buf.drop s.start).take
               (s.current + ((s.buf.drop s.current).takeWhile isAlphanumeric).length - s.start),
             literal := TLit.Null, line := s.line }] }) ∧
    scanTokens "ifx" =
      [{ ty := TTy.Ident, lexeme := "ifx".data, literal := TLit.Null, line := 1 },
       { ty := TTy.EOF, lexeme := [], literal := TLit.Null, line := 1 }] ∧
    scanTokens "If" =
      [{ ty := TTy.Ident, lexeme := "If".data, literal := TLit.Null, line := 1 },
       { ty := TTy.EOF, lexeme := [], literal := TLit.Null, line := 1 }] ∧
    scanTokens "true" =
      [{ ty := TTy.Ident, lexeme := "true".data, literal := TLit.Null, line := 1 },
       { ty := TTy.EOF, lexeme := [], literal := TLit.Null, line := 1 }] ∧
    scanTokens "false" =
      [{ ty := TTy.Ident, lexeme := "false".data, literal := TLit.Null, line := 1 },
       { ty := TTy.EOF, lexeme := [], literal := TLit.Null, line := 1 }] ∧
    scanTokens "if" =
      [{ ty := TTy.If, lexeme := "if".data, literal := TLit.Null, line := 1 },
       { ty := TTy.EOF, lexeme := [], literal := TLit.Null, line := 1 }] ∧
    scanTokens "True" =
      [{ ty := TTy.True, lexeme := "True".data, literal := TLit.Bool true, line := 1 },
       { ty := TTy.EOF, lexeme := [], literal := TLit.Null, line := 1 }] ∧
    scanTokens "False" =
      [{ ty := TTy.False, lexeme := "False".data, literal := TLit.Bool false, line := 1 },
       { ty := TTy.EOF, lexeme := [], literal := TLit.Null, line := 1 }] ∧
    scanTokens "aé" =
      [{ ty := TTy.Ident, lexeme := "aé".data, literal := TLit.Null, line := 1 },
       { ty := TTy.EOF, lexeme := [], literal := TLit.Null, line := 1 }] :=
  ⟨Scanner.expect_ident_nonkeyword s h, by decide, by decide, by decide, by decide,
    by decide, by decide, by decide, by decide⟩

theorem claim_c5_witness :
    "ifx".data ∉
      ["True".data, "False".data, "and".data, "class".data, "else".data, "for".data,
       "fn".data, "if".data, "null".data, "or".data, "print".data, "ret".data,
       "super".data, "self".data, "var".data, "while".data] ∧
    scanTokens "ifx" =
      [{ ty := TTy.Ident, lexeme := "ifx".data, literal := TLit.Null, line := 1 },
       { ty := TTy.EOF, lexeme := [], literal := TLit.Null, line := 1 }] :=
  ⟨by decide,
    (claim_c5_keyword_resolution (Scanner.mk "ifx".data 0 1 1 [] [] false) (by decide)).2.1⟩

/-- C8: the scan never aborts: a character matched by no dispatch rule (no
punctuation or operator start, not an ASCII decimal digit, and not a
Unicode-alphabetic letter) is reported to the error sink as "Unexpected
char." at the current line, produces no token, and the cursor moves exactly
one character so scanning resumes; for every input the main loop still
drains the whole buffer. -/
theorem claim_c8_unexpected_char (s : Scanner)
    (h0 : s.current < s.buf.length)
    (hns : s.buf.getD s.current (Char.ofNat 0) ∉
      ['(', ')', '{', '}', ',', '.', '-', '+', ';', '*', '!', '=', '<', '>', '/', '\"',
       ' ', '\r', '\t', '\n'])
    (hnd : (s.buf.getD s.current (Char.ofNat 0)).isDigit = false)
    (hna : isAlphabetic (s.buf.getD s.current (Char.ofNat 0)) = false) :
    s.scan_token =
      { s with current := s.current + 1,
               errors := s.errors ++ [(s.line, "Unexpected char.")] } ∧
    (∀ src : String, (scanState src).current = src.data.length) ∧
    scanTokens "@" = [{ ty := TTy.EOF, lexeme := [], literal := TLit.Null, line := 1 }] ∧
    (scanState "@").errors = [(1, "Unexpected char.")] := by
  simp only [List.mem_cons, List.not_mem_nil, or_false, not_or] at hns
  obtain ⟨n1, n2, n3, n4, n5, n6, n7, n8, n9, n10, n11, n12, n13, n14, n15, n16,
    n17, n18, n19, n20⟩ := hns
  have hne : s.reached_eof = false := s.reached_eof_false_iff.mpr h0
  refine ⟨?_, ?_, by decide, by decide⟩
  · simp only [Scanner.scan_token, Scanner.advance_fst]
    rw [if_neg n1]
    rw [if_neg n2]
    rw [if_neg n3]
    rw [if_neg n4]
    rw [if_neg n5]
    rw [if_neg n6]
    rw [if_neg n7]
    rw [if_neg n8]
    rw [if_neg n9]
    rw [if_neg n10]
    rw [if_neg n11]
    rw [if_neg n12]
    rw [if_neg n13]
    rw [if_neg n14]
    rw [if_neg n15]
    rw [if_neg n16]
    rw [if_neg (fun hc => by rcases hc with h | h | h; exacts [n17 h, n18 h, n19 h])]
    rw [if_neg n20]
    rw [if_neg (fun hc => Bool.noConfusion (hnd ▸ hc)),
      if_neg (fun hc => Bool.noConfusion (hna ▸ hc))]
    simp only [Scanner.report, Scanner.advance_snd, hne, Bool.or_false]
  · intro src
    obtain ⟨hbuf, hoob, hcur, hrest⟩ :=
      scanLoop_spec ((Scanner.new src).buf.length - (Scanner.new src).current)
        (Scanner.new src) (le_refl _) (by simp [Scanner.new])
    simpa [scanState, Scanner.runScan, Scanner.new] using hcur

theorem claim_c8_witness :
    (Scanner.new "@").buf.getD 0 (Char.ofNat 0) = '@' ∧
    Scanner.scan_token (Scanner.new "@") =
      { Scanner.new "@" with
          current := (Scanner.new "@").current + 1,
          errors := (Scanner.new "@").errors ++ [((Scanner.new "@").line, "Unexpected char.")] } :=
  ⟨by decide,
    (claim_c8_unexpected_char (Scanner.new "@") (by decide) (by decide) (by decide)
      (by decide)).1⟩

/-- C7 counterexample: the claim says that whenever a '/' is followed by a
second '/', the rest of the line is consumed and no token is emitted for the
comment; but on input "//" (where the second slash ends the buffer) the
strict lookahead guard rejects the match and the scanner emits two `FSlash`
tokens instead. -/
theorem claim_c7_counterexample :
    scanTokens "//" =
      [{ ty := TTy.FSlash, lexeme := ['/'], literal := TLit.Null, line := 1 },
       { ty := TTy.FSlash, lexeme := ['/'], literal := TLit.Null, line := 1 },
       { ty := TTy.EOF, lexeme := [], literal := TLit.Null, line := 1 }] := by decide

/-- C7 (amended): when a '/' is followed by a second '/' and at least one
more character remains after the second slash (so the strict lookahead guard
accepts), the rest of the current line is consumed but never tokenized, up to
and not including the next newline or end of input, no token is emitted and
the line counter is unchanged; input "// a" newline '+' yields exactly one
non-end-marker token, Plus on line 2. -/
theorem claim_c7_line_comment (s : Scanner)
    (h0 : s.current < s.buf.length)
    (h1 : s.buf.getD s.current (Char.ofNat 0) = '/')
    (h2 : s.current + 2 < s.buf.length)
    (h3 : s.buf.getD (s.current + 1) (Char.ofNat 0) = '/') :
    (s.scan_token).tokens = s.tokens ∧
    (s.scan_token).line = s.line ∧
    s.current + 2 ≤ (s.scan_token).current ∧
    (∀ i, s.current + 2 ≤ i → i < (s.scan_token).current →
      s.buf.getD i (Char.ofNat 0) ≠ '\n') ∧
    ((s.scan_token).current = s.buf.length ∨
      s.buf.getD ((s.scan_token).current) (Char.ofNat 0) = '\n') ∧
    scanTokens "// a\n+" =
      [{ ty := TTy.Plus, lexeme := ['+'], literal := TLit.Null, line := 2 },
       { ty := TTy.EOF, lexeme := [], literal := TLit.Null, line := 2 }] := by
  have hne : s.reached_eof = false := s.reached_eof_false_iff.mpr h0
  have hd2 : s.buf.drop (s.current + 1) =
      '/' :: s.buf.drop (s.current + 1 + 1) := by
    have := drop_cursor_cons s.buf (s.current + 1) (by omega)
    rw [h3] at this
    exact this
  have hred : s.scan_token = Scanner.commentLoop (s.buf.length - (s.current + 1 + 1))
      { s with current := s.current + 1 + 1 } := by
    simp only [Scanner.scan_token, Scanner.advance_fst]
    rw [if_neg (fun hc => by rw [h1] at hc; exact absurd hc (by decide))]
    rw [if_neg (fun hc => by rw [h1] at hc; exact absurd hc (by decide))]
    rw [if_neg (fun hc => by rw [h1] at hc; exact absurd hc (by decide))]
    rw [if_neg (fun hc => by rw [h1] at hc; exact absurd hc (by decide))]
    rw [if_neg (fun hc => by rw [h1] at hc; exact absurd hc (by decide))]
    rw [if_neg (fun hc => by rw [h1] at hc; exact absurd hc (by decide))]
    rw [if_neg (fun hc => by rw [h1] at hc; exact absurd hc (by decide))]
    rw [if_neg (fun hc => by rw [h1] at hc; exact absurd hc (by decide))]
    rw [if_neg (fun hc => by rw [h1] at hc; exact absurd hc (by decide))]
    rw [if_neg (fun hc => by rw [h1] at hc; exact absurd hc (by decide))]
    rw [if_neg (fun hc => by rw [h1] at hc; exact absurd hc (by decide))]
    rw [if_neg (fun hc => by rw [h1] at hc; exact absurd hc (by decide))]
    rw [if_neg (fun hc => by rw [h1] at hc; exact absurd hc (by decide))]
    rw [if_neg (fun hc => by rw [h1] at hc; exact absurd hc (by decide))]
    rw [if_pos h1]
    rw [Scanner.expect_many_eq]
    simp only [Scanner.advance_snd_buf, Scanner.advance_snd_current, List.length_singleton]
    have hpre : ['/'] <+: s.buf.drop (s.current + 1) :=
      Exists.intro (s.buf.drop (s.current + 1 + 1)) hd2.symm
    have hcond : 1 < s.buf.length - (s.current + 1) ∧
        ['/'] <+: s.buf.drop (s.current + 1) := ⟨by omega, hpre⟩
    rw [if_pos hcond]
    split_ifs with hq
    · simp only [Scanner.advance_snd_oob, Scanner.advance_snd_start, Scanner.advance_snd_line,
        Scanner.advance_snd_tokens, Scanner.advance_snd_errors, hne, Bool.or_false]
    · exact absurd rfl hq
  rw [hred]
  rw [Scanner.commentLoop_eq (s.buf.length - (s.current + 1 + 1))
    { s with current := s.current + 1 + 1 } (by simp)]
  have htwle : ((s.buf.drop (s.current + 1 + 1)).takeWhile (fun c => c ≠ '\n')).length ≤ s.buf.length - (s.current + 1 + 1) := by
    have h := (List.takeWhile_prefix (l := s.buf.drop (s.current + 1 + 1))
      (fun c => decide (c ≠ '\n'))).length_le
    rw [List.length_drop] at h
    exact h
  refine ⟨rfl, rfl, ?_, ?_, ?_, by decide⟩
  · show s.current + 2 ≤ s.current + 1 + 1 + ((s.buf.drop (s.current + 1 + 1)).takeWhile (fun c => c ≠ '\n')).length
    omega
  · intro i hi1 hi2
    have hi2' : i < s.current + 1 + 1 + ((s.buf.drop (s.current + 1 + 1)).takeWhile (fun c => c ≠ '\n')).length := hi2
    have hk : i - (s.current + 1 + 1) < ((s.buf.drop (s.current + 1 + 1)).takeWhile (fun c => c ≠ '\n')).length := by omega
    have hp := takeWhile_index (fun c => c ≠ '\n') (Char.ofNat 0)
      (s.buf.drop (s.current + 1 + 1)) (i - (s.current + 1 + 1)) hk
    rw [getD_drop] at hp
    rw [show s.current + 1 + 1 + (i - (s.current + 1 + 1)) = i from by omega] at hp
    simpa using hp
  · by_cases hend : ((s.buf.drop (s.current + 1 + 1)).takeWhile (fun c => c ≠ '\n')).length = (s.buf.drop (s.current + 1 + 1)).length
    · left
      show s.current + 1 + 1 + ((s.buf.drop (s.current + 1 + 1)).takeWhile (fun c => c ≠ '\n')).length = s.buf.length
      rw [hend, List.length_drop]
      omega
    · right
      have hlt2 : ((s.buf.drop (s.current + 1 + 1)).takeWhile (fun c => c ≠ '\n')).length < (s.buf.drop (s.current + 1 + 1)).length := by
        have := (List.takeWhile_prefix (l := s.buf.drop (s.current + 1 + 1))
          (fun c => decide (c ≠ '\n'))).length_le
        omega
      have hstop := takeWhile_stop (fun c => c ≠ '\n') (Char.ofNat 0)
        (s.buf.drop (s.current + 1 + 1)) hlt2
      rw [getD_drop] at hstop
      show s.buf.getD (s.current + 1 + 1 + ((s.buf.drop (s.current + 1 + 1)).takeWhile (fun c => c ≠ '\n')).length) (Char.ofNat 0) = '\n'
      simpa using hstop

theorem claim_c7_witness :
    (Scanner.new "// a\n+").buf.getD 0 (Char.ofNat 0) = '/' ∧
    (Scanner.new "// a\n+").buf.getD 1 (Char.ofNat 0) = '/' ∧
    (Scanner.scan_token (Scanner.new "// a\n+")).tokens = [] :=
  ⟨by decide, by decide,
    (claim_c7_line_comment (Scanner.new "// a\n+") (by decide) (by decide) (by decide)
      (by decide)).1⟩
